import Mathlib

/-!
# Verification of the WOW Speaker Series data-ingestion core

A shallow embedding of the data ingestion/normalization pipeline of the
repository (`utils.load_data`, `utils.clean_data`, `utils.get_decade_label`,
`wow_analysis_app.load_default_data`, `attendance_analysis.get_decade`,
and the two `standardize_wealth_range` implementations in
`giving_analysis.py` and `targeting_analysis.py`), together with theorems
settling the specification's claims about it.

Modelling conventions:

* A pandas cell value is a `CVal`: missing (`NaN`/`NaT`), a Python int, a
  Python float, a Python str, or a parsed datetime.  Floats are modelled as
  exact decimals `m / 10^e` (an integer mantissa and a decimal exponent);
  the float values this pipeline produces all come from decimal text or
  integer arithmetic, so this is exact where the claims look.
* A column carries a pandas dtype (`object`, `int64`, `float64`,
  `datetime64`) and its list of cells; a dataframe is a row count plus a
  name-keyed list of columns.  Column labels are assumed unique (pandas'
  Excel reader mangles duplicate headers), so a column assignment
  `df[c] = f(df[c])` is modelled as transforming every column named `c`.
* Python string operations used by the source (`strip`, `upper`,
  single-character `replace`, substring `in`, `int(...)`, `float(...)`)
  are re-implemented over `List Char` so that all definitions evaluate
  by kernel reduction.  `strip` is modelled as trimming ASCII whitespace
  and `int(...)` accepts an optional sign, digits and underscore
  separators; exotic unicode digits/whitespace are not modelled.
-/

/-- A Python/pandas cell value.  `float m e` denotes the value `m / 10^e`. -/
inductive CVal where
  | nan : CVal
  | int (z : Int) : CVal
  | float (m : Int) (e : Nat) : CVal
  | str (s : String) : CVal
  | date (d : Int) : CVal
deriving DecidableEq

/-- A pandas column dtype, as far as the pipeline inspects it. -/
inductive Dtype where
  | obj : Dtype
  | i64 : Dtype
  | f64 : Dtype
  | dt : Dtype
deriving DecidableEq

/-- One pandas column: its dtype and its cells. -/
structure Col where
  dtype : Dtype
  vals : List CVal
deriving DecidableEq

/-- A pandas dataframe: a row count and a name-keyed list of columns. -/
structure DataFrame where
  nrows : Nat
  cols : List (String × Col)
deriving DecidableEq

/-! ## Python string primitives over `List Char` -/

/-- Python `pat in s` (substring containment) on character lists. -/
def chHasInfix (s pat : List Char) : Bool :=
  if pat.isPrefixOf s then true
  else
    match s with
    | [] => false
    | _ :: t => chHasInfix t pat

/-- Python `pat in s` on strings. -/
def strContains (s pat : String) : Bool :=
  chHasInfix s.toList pat.toList

/-- Python `str.strip()` (ASCII whitespace on both ends). -/
def chStrip (l : List Char) : List Char :=
  ((l.dropWhile Char.isWhitespace).reverse.dropWhile Char.isWhitespace).reverse

/-- Python `str.upper()` (ASCII case folding, as `Char.toUpper`). -/
def chUpper (l : List Char) : List Char :=
  l.map Char.toUpper

/-- Drop every occurrence of one character (Python `s.replace(c, '')`). -/
def chDropChar (c : Char) (l : List Char) : List Char :=
  l.filter (fun x => x ≠ c)

/-- Replace one character by another (Python `s.replace(a, b)` for
single-character `a`, `b`). -/
def chSubstChar (a b : Char) (l : List Char) : List Char :=
  l.map (fun x => if x = a then b else x)

/-- Numeric value of a digit list (most significant first). -/
def chDigitsVal (l : List Char) : Nat :=
  l.foldl (fun a c => a * 10 + (c.toNat - 48)) 0

/-- `true` when the list is nonempty and all digits. -/
def chAllDigits (l : List Char) : Bool :=
  !l.isEmpty && l.all Char.isDigit

/-- A Python `int(...)` integer literal body: digits with single underscore
separators between digits. -/
def chIntBody (l : List Char) : Bool :=
  !l.isEmpty &&
  l.head? != some '_' &&
  l.getLast? != some '_' &&
  l.all (fun c => c.isDigit || c = '_') &&
  (l.zip (l.drop 1)).all (fun p => !(p.1 = '_' && p.2 = '_'))

/-- Python `int(s)` on a trimmed character list with optional sign. -/
def chIntParse (l : List Char) : Option Int :=
  match l with
  | '-' :: r => if chIntBody r then some (-(chDigitsVal (r.filter (fun c => c ≠ '_')) : Int)) else none
  | '+' :: r => if chIntBody r then some (chDigitsVal (r.filter (fun c => c ≠ '_')) : Int) else none
  | r => if chIntBody r then some (chDigitsVal (r.filter (fun c => c ≠ '_')) : Int) else none

/-- Python `int(s)`: strip whitespace, then parse a signed integer literal.
Returns `none` when `int(...)` would raise. -/
def pyIntParse (s : String) : Option Int :=
  chIntParse (chStrip s.toList)

/-! ## Python stringification of cell values -/

/-- Strip trailing zeros of the fractional part of a decimal `m / 10^e`,
returning an equal-valued pair (Python prints floats without trailing
fractional zeros). -/
def decNorm : Int → Nat → Int × Nat
  | m, 0 => (m, 0)
  | m, e + 1 => if m % 10 = 0 then decNorm (m / 10) e else (m, e + 1)

/-- Character form of the decimal `m / 10^e` the way Python prints the
corresponding float: an exact integer gets a trailing `.0`, otherwise the
fractional digits are printed without trailing zeros. -/
def pyFloatChars (m : Int) (e : Nat) : List Char :=
  let p := decNorm m e
  let m' := p.1
  let e' := p.2
  if e' = 0 then (toString m').toList ++ ['.', '0']
  else
    let sign : List Char := if m' < 0 then ['-'] else []
    let ds := (toString m'.natAbs).toList
    let ds := if ds.length ≤ e' then List.replicate (e' + 1 - ds.length) '0' ++ ds else ds
    sign ++ ds.take (ds.length - e') ++ ['.'] ++ ds.drop (ds.length - e')

/-- Python `str(v)` for a cell value.  `str(float('nan'))` is `"nan"`; a
pandas `Timestamp` prints as its date plus a time-of-day, which is never
numeric text (the embedding keeps the stored code followed by a
time-of-day). -/
def pyStr : CVal → String
  | .nan => "nan"
  | .int z => toString z
  | .float m e => String.mk (pyFloatChars m e)
  | .str s => s
  | .date d => toString d ++ " 00:00:00"

/-! ## `pd.to_numeric(..., errors='coerce')` and `pd.to_datetime(..., errors='coerce')` -/

/-- Parse the text accepted by pandas' numeric coercion: an optional sign,
then digits with at most one decimal point (at least one digit overall).
Exponent notation is not modelled (it does not occur in this data). -/
def chNumParse (l : List Char) : Option CVal :=
  let p : Int × List Char :=
    match l with
    | '-' :: r => (-1, r)
    | '+' :: r => (1, r)
    | r => (1, r)
  if chAllDigits p.2 then some (.int (p.1 * (chDigitsVal p.2 : Int)))
  else
    match p.2.splitOn '.' with
    | [ip, fp] =>
      if (ip ++ fp).all Char.isDigit && !(ip ++ fp).isEmpty then
        some (.float (p.1 * (chDigitsVal (ip ++ fp) : Int)) fp.length)
      else none
    | _ => none

/-- `pd.to_numeric(value, errors='coerce')` on one cell: numbers pass
through, text is parsed, anything unparsable becomes missing.  A datetime
cell coerces to its integer code (pandas uses the epoch timestamp). -/
def pyToNumericCell : CVal → CVal
  | .nan => .nan
  | .int z => .int z
  | .float m e => .float m e
  | .date d => .int d
  | .str s =>
    match chNumParse (chStrip s.toList) with
    | some v => v
    | none => .nan

/-- `true` when the cell is a Python int. -/
def cellIsInt : CVal → Bool
  | .int _ => true
  | _ => false

/-- `pd.to_numeric(column, errors='coerce')`: coerce every cell; the
resulting dtype is `int64` when every cell parsed as an integer and
`float64` otherwise. -/
def toNumericCol (c : Col) : Col :=
  let parsed := c.vals.map pyToNumericCell
  ⟨if parsed.all cellIsInt then .i64 else .f64, parsed⟩

/-- A "YYYY-MM-DD" text date, encoded as `y*10000 + m*100 + d`. -/
def chDateParse (l : List Char) : Option Int :=
  match l with
  | [y1, y2, y3, y4, '-', m1, m2, '-', d1, d2] =>
    if [y1, y2, y3, y4, m1, m2, d1, d2].all Char.isDigit then
      some ((chDigitsVal [y1, y2, y3, y4] * 10000 + chDigitsVal [m1, m2] * 100 + chDigitsVal [d1, d2] : Nat) : Int)
    else none
  | _ => none

/-- `pd.to_datetime(value, errors='coerce')` on one cell: datetimes pass
through, numbers are taken as timestamp codes, ISO `YYYY-MM-DD` text is
parsed, anything else becomes missing. -/
def pyToDatetimeCell : CVal → CVal
  | .nan => .nan
  | .date d => .date d
  | .int z => .date z
  | .float m e => .date (m / ((10 : Int) ^ e))
  | .str s =>
    match chDateParse (chStrip s.toList) with
    | some d => .date d
    | none => .nan

/-- `pd.to_datetime(column, errors='coerce')`: the column becomes
datetime-typed. -/
def toDatetimeCol (c : Col) : Col :=
  ⟨.dt, c.vals.map pyToDatetimeCell⟩

/-- `column.astype(str)`: every cell is stringified, dtype becomes object. -/
def astypeStrCol (c : Col) : Col :=
  ⟨.obj, c.vals.map (fun v => .str (pyStr v))⟩

/-! ## Dataframe primitives -/

/-- Transform every column, with access to its name. -/
def mapCols (f : String → Col → Col) (df : DataFrame) : DataFrame :=
  ⟨df.nrows, df.cols.map (fun p => (p.1, f p.1 p.2))⟩

/-- First column with the given label, if any. -/
def lookupCol (df : DataFrame) (n : String) : Option Col :=
  (df.cols.find? (fun p => p.1 = n)).map Prod.snd

/-- `n in df.columns`. -/
def hasCol (df : DataFrame) (n : String) : Bool :=
  (lookupCol df n).isSome

/-- `df[n] = c`: overwrite the column when the label exists, otherwise
append it. -/
def setCol (df : DataFrame) (n : String) (c : Col) : DataFrame :=
  if hasCol df n then
    ⟨df.nrows, df.cols.map (fun p => (p.1, if p.1 = n then c else p.2))⟩
  else
    ⟨df.nrows, df.cols ++ [(n, c)]⟩

/-! ## `utils.clean_data`, step by step

`clean_data` first copies its argument (`df_clean = df.copy()`); the pure
embedding makes the copy implicit and a separate store-based embedding
(`clean_data_prog` below) makes it explicit.  The steps follow the source
order: empty strings to missing, `ID` to str, year columns to numeric,
date-named columns to datetime, currency text in Gift/Ask columns to
numeric, the `Decade` column, `State` fillna, and `Total_All_Giving`. -/

/-- `replace('', np.nan)` on one cell. -/
def replaceEmptyCell (v : CVal) : CVal :=
  if v = .str "" then .nan else v

/-- Replace empty strings with missing, in every column. -/
def stepEmpty (df : DataFrame) : DataFrame :=
  mapCols (fun _ c => ⟨c.dtype, c.vals.map replaceEmptyCell⟩) df

/-- `df_clean['ID'] = df_clean['ID'].astype(str)` when present. -/
def stepID (df : DataFrame) : DataFrame :=
  mapCols (fun n c => if n = "ID" then astypeStrCol c else c) df

/-- `pd.to_numeric(..., errors='coerce')` on `CL YR` and `SP CL YR`. -/
def stepYears (df : DataFrame) : DataFrame :=
  mapCols (fun n c => if n = "CL YR" ∨ n = "SP CL YR" then toNumericCol c else c) df

/-- A date column: the label contains `"Date"` or `"date"`. -/
def isDateName (n : String) : Bool :=
  strContains n "Date" || strContains n "date"

/-- `pd.to_datetime(..., errors='coerce')` on every date column. -/
def stepDates (df : DataFrame) : DataFrame :=
  mapCols (fun n c => if isDateName n then toDatetimeCol c else c) df

/-- An amount column: the label contains `"Gift"` or `"Ask"` and it is not
a date column. -/
def isAmountName (n : String) : Bool :=
  (strContains n "Gift" || strContains n "Ask") && !isDateName n

/-- `.astype(str).str.replace('$','').str.replace(',','')` on one cell. -/
def stripAmountChars (v : CVal) : CVal :=
  .str (String.mk (chDropChar ',' (chDropChar '$' (pyStr v).toList)))

/-- Currency cleanup of one object-typed amount column: stringify, strip
`$` and `,`, coerce to numeric. -/
def amountCol (c : Col) : Col :=
  toNumericCol ⟨.obj, c.vals.map stripAmountChars⟩

/-- Gift/Ask currency processing: only object-typed amount columns are
touched, and the categorical range columns `WE Range` and `LT Giving` are
kept as-is. -/
def stepAmounts (df : DataFrame) : DataFrame :=
  mapCols (fun n c =>
    if isAmountName n && c.dtype = .obj then
      if n = "WE Range" ∨ n = "LT Giving" then c else amountCol c
    else c) df

/-- Python `int(x)` on a number: truncation toward zero. -/
def pyTruncFloat (m : Int) (e : Nat) : Int :=
  if 0 ≤ m then m / ((10 : Int) ^ e) else -((-m) / ((10 : Int) ^ e))

/-- `(x // 10) * 10` on one `CL YR` cell (floor division; the column is
numeric or missing here, `clean_data` having already coerced it). -/
def floorDecadeCell : CVal → CVal
  | .int z => .int (z / 10 * 10)
  | .float m e => .float (m / ((10 : Int) ^ (e + 1)) * 10) 0
  | _ => .nan

/-- The lambda `f"{int(x)}s" if not pd.isna(x) else "Unknown"`. -/
def decadeFmtCell : CVal → CVal
  | .nan => .str "Unknown"
  | .int z => .str (toString z ++ "s")
  | .float m e => .str (toString (pyTruncFloat m e) ++ "s")
  | _ => .str "Unknown"

/-- The `Decade` value derived from one `CL YR` cell in `clean_data`. -/
def decadeCellClean (v : CVal) : CVal :=
  decadeFmtCell (floorDecadeCell v)

/-- Derive the `Decade` column from `CL YR` when present. -/
def stepDecade (df : DataFrame) : DataFrame :=
  match lookupCol df "CL YR" with
  | none => df
  | some c => setCol df "Decade" ⟨.obj, c.vals.map decadeCellClean⟩

/-- `fillna('Unknown')`: missing cells become the string; pandas turns a
non-object column with missing values into an object column. -/
def fillUnknownCol (c : Col) : Col :=
  ⟨if c.vals.any (fun v => v = .nan) then .obj else c.dtype,
   c.vals.map (fun v => if v = .nan then .str "Unknown" else v)⟩

/-- `df_clean['State'] = df_clean['State'].fillna('Unknown')` when present. -/
def stepState (df : DataFrame) : DataFrame :=
  mapCols (fun n c => if n = "State" then fillUnknownCol c else c) df

/-- A giving-amount column: the label contains `"Gifts"` or `"Gift"` but
not `"Pledge"`, it is not a date column, and it is not datetime-typed. -/
def givingPred (n : String) (c : Col) : Bool :=
  (strContains n "Gifts" || strContains n "Gift") &&
  !strContains n "Pledge" && !isDateName n && c.dtype ≠ .dt

/-- The columns of a dataframe classified as giving-amount columns. -/
def givingColsOf (df : DataFrame) : List (String × Col) :=
  df.cols.filter (fun p => givingPred p.1 p.2)

/-- Integer value of a cell, missing as zero (used for the all-int64 sum,
where every cell is an int). -/
def cellInt : CVal → Int
  | .int z => z
  | _ => 0

/-- Exact decimal sum of two cells as a mantissa/exponent pair. -/
def decAdd (a : Int × Nat) (v : CVal) : Int × Nat :=
  match v with
  | .int z => (a.1 + z * ((10 : Int) ^ a.2), a.2)
  | .float m e =>
    let e' := max a.2 e
    (a.1 * ((10 : Int) ^ (e' - a.2)) + m * ((10 : Int) ^ (e' - e)), e')
  | _ => a

/-- `df[giving_cols].sum(axis=1, skipna=True)`: row-wise sums with missing
as zero; the result is int64 when every giving column is int64 and float64
otherwise (as in pandas). -/
def totalCol (nrows : Nat) (g : List (String × Col)) : Col :=
  if g.all (fun p => p.2.dtype = .i64) then
    ⟨.i64, (List.range nrows).map (fun i =>
      .int (g.foldl (fun a p => a + cellInt (p.2.vals.getD i .nan)) 0))⟩
  else
    ⟨.f64, (List.range nrows).map (fun i =>
      let s := g.foldl (fun a p => decAdd a (p.2.vals.getD i .nan)) ((0 : Int), (0 : Nat))
      .float s.1 s.2)⟩

/-- Compute `Total_All_Giving` when any giving column exists.  (The
source's `except` fallback is unreachable here: by this point every
giving column is numeric, so the row-wise sum cannot fail.) -/
def stepTotal (df : DataFrame) : DataFrame :=
  let g := givingColsOf df
  if g.isEmpty then df else setCol df "Total_All_Giving" (totalCol df.nrows g)

/-- `utils.clean_data`: the full normalization pipeline. -/
def clean_data (df : DataFrame) : DataFrame :=
  stepTotal (stepState (stepDecade (stepAmounts (stepDates (stepYears (stepID (stepEmpty df)))))))

/-! ## The loaders -/

/-- A workbook source: either it fails to open, or it yields a list of
named sheets, each of which parses to a dataframe or fails. -/
structure Workbook where
  openResult : Except String (List (String × Except String DataFrame))

/-- `utils.load_data`: per-sheet parse failures are skipped (with a
warning in the source), a workbook-level failure is re-raised. -/
def load_data (wb : Workbook) : Except String (List (String × DataFrame)) :=
  match wb.openResult with
  | .error e => .error e
  | .ok sheets =>
    .ok (sheets.filterMap (fun p =>
      match p.2 with
      | .ok d => some (p.1, d)
      | .error _ => none))

/-- `wow_analysis_app.load_default_data`: read all sheets at once (any
failure, workbook- or sheet-level, is caught and yields `None`), then
delete the key `'Sheet7'` when present. -/
def load_default_data (wb : Workbook) : Option (List (String × DataFrame)) :=
  match wb.openResult with
  | .error _ => none
  | .ok sheets =>
    if sheets.all (fun p => p.2.isOk) then
      some ((sheets.filterMap (fun p =>
        match p.2 with
        | .ok d => some (p.1, d)
        | .error _ => none)).filter (fun p => p.1 ≠ "Sheet7"))
    else none

/-! ## The decade functions -/

/-- The numeric branch shared by `attendance_analysis.get_decade`:
clamp below 1950 and at/above 2020, otherwise floor to the decade.
(`z / 10` on `Int` is floor division, matching Python `//` for the
positive divisor 10.) -/
def decadeNum (z : Int) : String :=
  if z < 1950 then "Pre-1950s"
  else if 2020 ≤ z then "2020s"
  else toString (z / 10 * 10) ++ "s"

/-- The string fallback of `attendance_analysis.get_decade`, reached when
`int(year)` raises: a trimmed 4-digit string is bucketed like a number,
a 2-digit string is expanded around the 1950 pivot, anything else is
`"Unknown"`. -/
def decadeFallback (s : String) : String :=
  let l := chStrip s.toList
  if chAllDigits l && l.length = 4 then decadeNum (chDigitsVal l : Int)
  else if chAllDigits l && l.length = 2 then
    let y2 := chDigitsVal l
    if 50 ≤ y2 then toString (1900 + y2 / 10 * 10) ++ "s"
    else toString (2000 + y2 / 10 * 10) ++ "s"
  else "Unknown"

/-- `attendance_analysis.get_decade`: missing is `"Unknown"`; numbers are
truncated to int and bucketed with the Pre-1950s/2020s clamps; strings go
through `int(...)` and then the digit-string fallback; a datetime makes
`int(...)` raise and its string form is never digits. -/
def get_decade : CVal → String
  | .nan => "Unknown"
  | .int z => decadeNum z
  | .float m e => decadeNum (pyTruncFloat m e)
  | .str s =>
    match pyIntParse s with
    | some z => decadeNum z
    | none => decadeFallback s
  | .date d => decadeFallback (pyStr (.date d))

/-- `utils.get_decade_label`: missing is `"Unknown"`, otherwise
`f"{(int(year) // 10) * 10}s"`, with any `int(...)` failure giving
`"Unknown"`. -/
def get_decade_label : CVal → String
  | .nan => "Unknown"
  | .int z => toString (z / 10 * 10) ++ "s"
  | .float m e => toString (pyTruncFloat m e / 10 * 10) ++ "s"
  | .str s =>
    match pyIntParse s with
    | some z => toString (z / 10 * 10) ++ "s"
    | none => "Unknown"
  | .date _ => "Unknown"

/-! ## The two wealth-range standardizers -/

/-- The `if` chain of `giving_analysis.standardize_wealth_range` on the
trimmed, uppercased text. -/
def wealthGivingCore (s : String) : String :=
  if strContains s "UNDER" || strContains s "<" then "Under $100K"
  else if strContains s "100K-250K" || strContains s "100-250" then "$100K-$250K"
  else if strContains s "250K-500K" || strContains s "250-500" then "$250K-$500K"
  else if strContains s "500K-1M" || strContains s "500-1000" then "$500K-$1M"
  else if strContains s "1M-5M" || strContains s "1000-5000" then "$1M-$5M"
  else if strContains s "5M+" || strContains s ">5M" || strContains s "OVER 5M" then "Over $5M"
  else "Unknown"

/-- `giving_analysis.standardize_wealth_range` (inside
`wealth_range_distribution`): missing is `"Unknown"`, otherwise
`str(x).strip().upper()` is matched against the pattern chain. -/
def standardize_wealth_range_giving : CVal → String
  | .nan => "Unknown"
  | v => wealthGivingCore (String.mk (chUpper (chStrip (pyStr v).toList)))

/-- The `if` chain of `targeting_analysis.standardize_wealth_range` on the
cleaned text. -/
def wealthTargetCore (s : String) : String :=
  if strContains s "5,000,000+" || strContains s "5M+" then "Over $5M"
  else if strContains s "1,000,000-4,999,999" || strContains s "1M-5M" then "$1M-$5M"
  else if strContains s "500,000-999,999" || strContains s "500K-1M" then "$500K-$1M"
  else if strContains s "250,000-499,999" || strContains s "250K-500K" then "$250K-$500K"
  else if strContains s "100,000-249,999" || strContains s "100K-250K" then "$100K-$250K"
  else if strContains s "50,000-99,999" || strContains s "50K-100K" then "$50K-$100K"
  else "Under $50K"

/-- `targeting_analysis.standardize_wealth_range` (inside
`high_capacity_prospects`): missing is `"Unknown"`, otherwise
`str(x).strip().upper()` with newlines dropped and the unicode minus
replaced, matched against its pattern chain; everything unrecognized
falls through to `"Under $50K"`. -/
def standardize_wealth_range_targeting : CVal → String
  | .nan => "Unknown"
  | v =>
    wealthTargetCore (String.mk (chSubstChar '−' '-'
      (chDropChar '\n' (chUpper (chStrip (pyStr v).toList)))))

/-! ## The rational value of a cell (for statements about sums) -/

/-- Numeric value of a cell as a rational; missing and non-numeric cells
count as zero (`skipna=True`). -/
def cellRat : CVal → ℚ
  | .int z => (z : ℚ)
  | .float m e => (m : ℚ) / (10 : ℚ) ^ e
  | _ => 0

/-! ## A store-based embedding of `clean_data`'s in-place writes

`clean_data` mutates `df_clean`, a fresh copy of its argument, through a
sequence of column assignments.  To state the frame property (the caller's
dataframe is untouched) the mutation is made explicit: a store maps
references to dataframes, `df.copy()` allocates a fresh reference, and
every subsequent write hits that reference only. -/

/-- A heap of dataframes with an allocation bound: references below
`next` are live. -/
structure PdStore where
  mem : Nat → DataFrame
  next : Nat

/-- Write one reference. -/
def storeSet (σ : PdStore) (i : Nat) (d : DataFrame) : PdStore :=
  ⟨Function.update σ.mem i d, σ.next⟩

/-- `clean_data` as it executes: allocate the copy, then perform each
normalization step as an in-place write to the copy; the returned
reference is the copy's. -/
def clean_data_prog (σ0 : PdStore) (r : Nat) : PdStore × Nat :=
  let j := σ0.next
  let σ : PdStore := ⟨Function.update σ0.mem j (σ0.mem r), j + 1⟩
  let σ := storeSet σ j (stepEmpty (σ.mem j))
  let σ := storeSet σ j (stepID (σ.mem j))
  let σ := storeSet σ j (stepYears (σ.mem j))
  let σ := storeSet σ j (stepDates (σ.mem j))
  let σ := storeSet σ j (stepAmounts (σ.mem j))
  let σ := storeSet σ j (stepDecade (σ.mem j))
  let σ := storeSet σ j (stepState (σ.mem j))
  let σ := storeSet σ j (stepTotal (σ.mem j))
  (σ, j)

/-! ## Generic dataframe lemmas -/

/-- Value lookup in a name-keyed column list (first match). -/
def findVal (l : List (String × Col)) (n : String) : Option Col :=
  (l.find? (fun p => p.1 = n)).map Prod.snd

theorem lookupCol_eq_findVal (df : DataFrame) (n : String) :
    lookupCol df n = findVal df.cols n := rfl

theorem findVal_keyedMap (g : String → Col → Col) (l : List (String × Col)) (n : String) :
    findVal (l.map (fun p => (p.1, g p.1 p.2))) n = (findVal l n).map (g n) := by
  induction l with
  | nil => rfl
  | cons p t ih =>
    by_cases h : p.1 = n
    · simp [findVal, List.find?_cons, h]
    · simp only [findVal, List.map_cons, List.find?_cons] at ih ⊢
      simp only [h, decide_eq_false, Bool.false_eq_true, if_false]
      simpa [h] using ih

theorem keyedMap_eq_self (g : String → Col → Col) {l : List (String × Col)}
    (h : ∀ p ∈ l, g p.1 p.2 = p.2) : l.map (fun p => (p.1, g p.1 p.2)) = l := by
  induction l with
  | nil => rfl
  | cons p t ih =>
    simp only [List.map_cons]
    rw [h p (by simp), ih (fun q hq => h q (by simp [hq]))]

theorem mapCols_nrows (f : String → Col → Col) (df : DataFrame) :
    (mapCols f df).nrows = df.nrows := rfl

theorem setCol_nrows (df : DataFrame) (k : String) (c : Col) :
    (setCol df k c).nrows = df.nrows := by
  unfold setCol; split <;> rfl

theorem lookupCol_mapCols (f : String → Col → Col) (df : DataFrame) (n : String) :
    lookupCol (mapCols f df) n = (lookupCol df n).map (f n) := by
  rw [lookupCol_eq_findVal, lookupCol_eq_findVal]
  exact findVal_keyedMap f df.cols n

theorem mem_mapCols {f : String → Col → Col} {df : DataFrame} {q : String × Col}
    (hq : q ∈ (mapCols f df).cols) : ∃ p ∈ df.cols, q = (p.1, f p.1 p.2) := by
  unfold mapCols at hq
  simp only [List.mem_map] at hq
  obtain ⟨p, hp, he⟩ := hq
  exact ⟨p, hp, he.symm⟩

theorem mapCols_eq_self {f : String → Col → Col} {df : DataFrame}
    (h : ∀ p ∈ df.cols, f p.1 p.2 = p.2) : mapCols f df = df := by
  unfold mapCols
  cases df with
  | mk nr cs =>
    simp only [DataFrame.mk.injEq, true_and]
    exact keyedMap_eq_self f h

theorem findVal_eq_none_of_not_has (df : DataFrame) (k : String)
    (h : hasCol df k = false) :
    List.find? (fun p => decide (p.1 = k)) df.cols = none := by
  unfold hasCol lookupCol at h
  cases hf : List.find? (fun p => decide (p.1 = k)) df.cols with
  | none => rfl
  | some q => rw [hf] at h; simp at h

theorem lookupCol_setCol_ne (df : DataFrame) (k : String) (c : Col) {n : String}
    (h : n ≠ k) : lookupCol (setCol df k c) n = lookupCol df n := by
  unfold setCol
  split
  · show findVal (df.cols.map (fun p => (p.1, if p.1 = k then c else p.2))) n = _
    rw [findVal_keyedMap (fun m c0 => if m = k then c else c0) df.cols n]
    rw [lookupCol_eq_findVal]
    cases findVal df.cols n with
    | none => rfl
    | some q => simp [h]
  case isFalse hh =>
    show findVal (df.cols ++ [(k, c)]) n = _
    unfold findVal
    rw [List.find?_append]
    have hsing : List.find? (fun p => decide (p.1 = n)) [(k, c)] = none := by
      have : ¬(k = n) := fun hx => h hx.symm
      simp [List.find?, this]
    rw [hsing]
    simp [lookupCol_eq_findVal, findVal]

theorem lookupCol_setCol_self (df : DataFrame) (k : String) (c : Col) :
    lookupCol (setCol df k c) k = some c := by
  unfold setCol
  split
  case isTrue h =>
    show findVal (df.cols.map (fun p => (p.1, if p.1 = k then c else p.2))) k = some c
    rw [findVal_keyedMap (fun m c0 => if m = k then c else c0) df.cols k]
    unfold hasCol at h
    rw [lookupCol_eq_findVal] at h
    cases hf : findVal df.cols k with
    | none => rw [hf] at h; simp at h
    | some q => simp
  case isFalse h =>
    show findVal (df.cols ++ [(k, c)]) k = some c
    unfold findVal
    rw [List.find?_append]
    rw [findVal_eq_none_of_not_has df k (by simpa using h)]
    simp [List.find?]

theorem hasCol_setCol_self (df : DataFrame) (k : String) (c : Col) :
    hasCol (setCol df k c) k = true := by
  unfold hasCol
  rw [lookupCol_setCol_self]
  rfl

theorem mem_setCol {df : DataFrame} {k : String} {c : Col} {q : String × Col}
    (hq : q ∈ (setCol df k c).cols) : (q ∈ df.cols ∧ q.1 ≠ k) ∨ q = (k, c) := by
  unfold setCol at hq
  split at hq
  · simp only [List.mem_map] at hq
    obtain ⟨p, hp, he⟩ := hq
    by_cases hpk : p.1 = k
    · right; rw [← he]; simp [hpk]
    · left; rw [← he]; simp [hpk]; exact hp
  case isFalse h =>
    rw [List.mem_append] at hq
    cases hq with
    | inl hin =>
      left
      refine ⟨hin, fun hk => ?_⟩
      have hnone := findVal_eq_none_of_not_has df k (by simpa using h)
      have := List.find?_eq_none.mp hnone q hin
      simp [hk] at this
    | inr hone => right; simpa using hone

theorem setCol_eq_self {df : DataFrame} {k : String} {c : Col}
    (hhas : hasCol df k = true) (h : ∀ p ∈ df.cols, p.1 = k → p.2 = c) :
    setCol df k c = df := by
  unfold setCol
  rw [if_pos hhas]
  cases df with
  | mk nr cs =>
    simp only [DataFrame.mk.injEq, true_and]
    apply keyedMap_eq_self (fun m c0 => if m = k then c else c0)
    intro p hp
    by_cases hpk : p.1 = k
    · rw [if_pos hpk]
      exact (h p hp hpk).symm
    · rw [if_neg hpk]

/-! ## Concrete dataframes and workbooks used by counterexamples and witnesses -/

/-- The empty dataframe. -/
def df0 : DataFrame := ⟨0, []⟩

/-- A workbook whose only sheet is a parseable `"Sheet7"`. -/
def wb7 : Workbook := ⟨.ok [("Sheet7", .ok df0)]⟩

/-- A workbook whose only sheet is a parseable lowercase `"sheet7"`. -/
def wb7l : Workbook := ⟨.ok [("sheet7", .ok df0)]⟩

/-- A workbook with a placeholder sheet and a real one. -/
def wbMix : Workbook := ⟨.ok [("Sheet7", .ok df0), ("A", .ok df0)]⟩

/-- Sheet A of the spec's end-to-end scenario: `ID` values `101`, `102.0`,
`"103"` (a mixed object column). -/
def dfA : DataFrame := ⟨3, [("ID", ⟨.obj, [.int 101, .float 102 0, .str "103"]⟩)]⟩

/-- Sheet B of the spec's end-to-end scenario: `ID` values `101`, `104`. -/
def dfB : DataFrame := ⟨2, [("ID", ⟨.i64, [.int 101, .int 104]⟩)]⟩

/-- The spec's two-sheet scenario workbook. -/
def wbAB : Workbook := ⟨.ok [("A", .ok dfA), ("B", .ok dfB)]⟩

/-- A one-row table with a negative gift amount. -/
def dfNeg : DataFrame := ⟨1, [("Gift 1", ⟨.i64, [.int (-5)]⟩)]⟩

/-- A one-row table with a currency-formatted gift column. -/
def dfW : DataFrame := ⟨1, [("Gift 2023", ⟨.obj, [.str "$12,345.67"]⟩)]⟩

/-- A one-row table whose currency column is lowercase `"gift"`. -/
def dfg : DataFrame := ⟨1, [("gift", ⟨.obj, [.str "$1"]⟩)]⟩

/-- The normalized identifier strings of a table's `ID` column. -/
def idsOf (df : DataFrame) : List String :=
  match lookupCol df "ID" with
  | some c => c.vals.map pyStr
  | none => []

/-! ## C3: the decade bucket function -/

/-- C3: `get_decade` is deterministic and follows the spec's bucket rule:
missing (and unparsable text) gives `"Unknown"`, years below 1950 give
`"Pre-1950s"`, years at or above 2020 give `"2020s"`, and years between
give `floor(y/10)*10` followed by `"s"`; in particular 1983 ↦ `"1980s"`,
1949 ↦ `"Pre-1950s"`, 2021 ↦ `"2020s"`, `None` ↦ `"Unknown"`. -/
theorem c3_decade_bucket :
    (∀ y : CVal, get_decade y = get_decade y) ∧
    get_decade .nan = "Unknown" ∧
    (∀ z : Int, z < 1950 → get_decade (.int z) = "Pre-1950s") ∧
    (∀ z : Int, 2020 ≤ z → get_decade (.int z) = "2020s") ∧
    (∀ z : Int, 1950 ≤ z → z < 2020 →
      get_decade (.int z) = toString (z / 10 * 10) ++ "s") ∧
    (∀ s : String, pyIntParse s = none →
      ¬(chAllDigits (chStrip s.toList) = true ∧
        ((chStrip s.toList).length = 4 ∨ (chStrip s.toList).length = 2)) →
      get_decade (.str s) = "Unknown") ∧
    get_decade (.int 1983) = "1980s" ∧
    get_decade (.int 1949) = "Pre-1950s" ∧
    get_decade (.int 2021) = "2020s" := by
  refine ⟨fun y => rfl, rfl, ?_, ?_, ?_, ?_, by decide, by decide, by decide⟩
  · intro z h
    show decadeNum z = _
    unfold decadeNum
    rw [if_pos h]
  · intro z h
    show decadeNum z = _
    unfold decadeNum
    rw [if_neg (by omega), if_pos h]
  · intro z h1 h2
    show decadeNum z = _
    unfold decadeNum
    rw [if_neg (by omega), if_neg (by omega)]
  · intro s h1 h2
    simp only [String.toList] at h2
    show (match pyIntParse s with
          | some z => decadeNum z
          | none => decadeFallback s) = "Unknown"
    rw [h1]
    show decadeFallback s = "Unknown"
    unfold decadeFallback
    dsimp only
    by_cases hd : chAllDigits (chStrip s.data) = true
    · have h4 : (chStrip s.data).length ≠ 4 := fun hx => h2 ⟨hd, Or.inl hx⟩
      have h5 : (chStrip s.data).length ≠ 2 := fun hx => h2 ⟨hd, Or.inr hx⟩
      rw [if_neg (by simp [hd, h4]), if_neg (by simp [hd, h5])]
    · have hf : chAllDigits (chStrip s.data) = false := by
        revert hd; cases chAllDigits (chStrip s.data) <;> simp
      rw [if_neg (by simp [hf]), if_neg (by simp [hf])]

/-- Witness for C3 at concrete inputs. -/
theorem c3_decade_bucket_witness :
    get_decade (.int 1907) = "Pre-1950s" ∧
    get_decade (.int 2034) = "2020s" ∧
    get_decade (.int 1996) = "1990s" ∧
    get_decade (.str "N/A") = "Unknown" :=
  ⟨c3_decade_bucket.2.2.1 1907 (by decide),
   c3_decade_bucket.2.2.2.1 2034 (by decide),
   (c3_decade_bucket.2.2.2.2.1 1996 (by decide) (by decide)).trans (by decide),
   c3_decade_bucket.2.2.2.2.2.1 "N/A" (by decide) (by decide)⟩

/-! ## C4: is decade bucketing a single shared function? -/

/-- C4 counterexample: at year 1949 the attendance `get_decade` gives
`"Pre-1950s"` while the utility `get_decade_label` and the normalizer's
`Decade` derivation both give `"1940s"`, so the consumers do not apply
one shared bucket function. -/
theorem c4_decade_consistency_counterexample :
    get_decade (.int 1949) = "Pre-1950s" ∧
    get_decade_label (.int 1949) = "1940s" ∧
    decadeCellClean (.int 1949) = .str "1940s" ∧
    "Pre-1950s" ≠ "1940s" := by
  refine ⟨by decide, by decide, by decide, by decide⟩

/-- C4 amended: the normalizer's `Decade` derivation and
`get_decade_label` agree on every integer year and on missing values, and
both agree with the attendance `get_decade` exactly on missing values and
integer years in `[1950, 2030)`; `get_decade` differs below 1950
(`"Pre-1950s"`) and at/above 2030 (the `"2020s"` clamp). -/
theorem c4_decade_consistency_amended :
    (∀ z : Int, decadeCellClean (.int z) = .str (get_decade_label (.int z))) ∧
    decadeCellClean .nan = .str (get_decade_label .nan) ∧
    (∀ z : Int, 1950 ≤ z → z < 2030 →
      get_decade (.int z) = get_decade_label (.int z)) ∧
    get_decade .nan = get_decade_label .nan := by
  refine ⟨fun z => rfl, rfl, ?_, rfl⟩
  intro z h1 h2
  show decadeNum z = toString (z / 10 * 10) ++ "s"
  unfold decadeNum
  by_cases h3 : z < 2020
  · rw [if_neg (by omega), if_neg (by omega)]
  · rw [if_neg (by omega), if_pos (by omega)]
    have hz : z / 10 = 202 := by omega
    rw [hz]
    decide

/-- Witness for C4 at a concrete year. -/
theorem c4_decade_consistency_witness :
    get_decade (.int 1983) = get_decade_label (.int 1983) ∧
    decadeCellClean (.int 1983) = .str (get_decade_label (.int 1983)) :=
  ⟨c4_decade_consistency_amended.2.2.1 1983 (by decide) (by decide),
   c4_decade_consistency_amended.1 1983⟩

/-! ## C5: the two wealth-range standardizers -/

/-- C5 counterexample: on `"5,000,000+"` the giving-analysis standardizer
returns its fallback `"Unknown"` (not `"Over $5M"` as the claim requires)
while the targeting-analysis one returns `"Over $5M"`, so the two
implementations disagree; the giving one also misses
`"100,000-249,999"`. -/
theorem c5_wealth_range_counterexample :
    standardize_wealth_range_giving (.str "5,000,000+") = "Unknown" ∧
    standardize_wealth_range_targeting (.str "5,000,000+") = "Over $5M" ∧
    standardize_wealth_range_giving (.str "5,000,000+") ≠
      standardize_wealth_range_targeting (.str "5,000,000+") ∧
    standardize_wealth_range_giving (.str "100,000-249,999") = "Unknown" := by
  refine ⟨by decide, by decide, by decide, by decide⟩

theorem wealthTargetCore_mem (s : String) :
    wealthTargetCore s ∈ ["Over $5M", "$1M-$5M", "$500K-$1M", "$250K-$500K",
      "$100K-$250K", "$50K-$100K", "Under $50K"] := by
  unfold wealthTargetCore
  split_ifs <;> decide

theorem wealthGivingCore_mem (s : String) :
    wealthGivingCore s ∈ ["Under $100K", "$100K-$250K", "$250K-$500K",
      "$500K-$1M", "$1M-$5M", "Over $5M", "Unknown"] := by
  unfold wealthGivingCore
  split_ifs <;> decide

/-- C5 amended: the targeting-analysis standardizer maps every value into
the claimed vocabulary, with `"Under $50K"` as the fallback for
unrecognized text and `"Unknown"` for missing, and sends `"5,000,000+"`
to `"Over $5M"` and `"100,000-249,999"` to `"$100K-$250K"`; the
giving-analysis implementation uses a different vocabulary (including
`"Under $100K"`, with fallback `"Unknown"`) and disagrees with it, e.g.
on `"5,000,000+"`. -/
theorem c5_wealth_range_amended :
    (∀ v : CVal, standardize_wealth_range_targeting v ∈
      ["Unknown", "Over $5M", "$1M-$5M", "$500K-$1M", "$250K-$500K",
       "$100K-$250K", "$50K-$100K", "Under $50K"]) ∧
    standardize_wealth_range_targeting (.str "5,000,000+") = "Over $5M" ∧
    standardize_wealth_range_targeting (.str "100,000-249,999") = "$100K-$250K" ∧
    standardize_wealth_range_targeting (.str "TBD") = "Under $50K" ∧
    standardize_wealth_range_targeting .nan = "Unknown" ∧
    (∀ v : CVal, standardize_wealth_range_giving v ∈
      ["Under $100K", "$100K-$250K", "$250K-$500K", "$500K-$1M", "$1M-$5M",
       "Over $5M", "Unknown"]) ∧
    standardize_wealth_range_giving (.str "5,000,000+") ≠
      standardize_wealth_range_targeting (.str "5,000,000+") := by
  refine ⟨?_, by decide, by decide, by decide, by decide, ?_, by decide⟩
  · intro v
    cases v with
    | nan => decide
    | int z => exact List.mem_cons_of_mem _ (wealthTargetCore_mem _)
    | float m e => exact List.mem_cons_of_mem _ (wealthTargetCore_mem _)
    | str s => exact List.mem_cons_of_mem _ (wealthTargetCore_mem _)
    | date d => exact List.mem_cons_of_mem _ (wealthTargetCore_mem _)
  · intro v
    cases v with
    | nan => decide
    | int z => exact wealthGivingCore_mem _
    | float m e => exact wealthGivingCore_mem _
    | str s => exact wealthGivingCore_mem _
    | date d => exact wealthGivingCore_mem _

/-! ## C1: placeholder-sheet exclusion at load time -/

/-- C1 counterexample: `load_data` keeps every parseable sheet, so a
workbook containing `"Sheet7"` loads with that key present (and its name
case-insensitively equals `"sheet7"`); even `load_default_data`, which
does delete a key, deletes only the exact spelling `"Sheet7"`, so a
lowercase `"sheet7"` sheet survives it. -/
theorem c1_sheet7_counterexample :
    load_data wb7 = .ok [("Sheet7", df0)] ∧
    chUpper "Sheet7".toList = chUpper "sheet7".toList ∧
    load_default_data wb7l = some [("sheet7", df0)] := by
  refine ⟨rfl, by decide, rfl⟩

/-- C1 amended: only `load_default_data` excludes the placeholder, and
only under its exact spelling: whenever it succeeds, no key of the result
equals `"Sheet7"` and every other parseable sheet is retained, while
`load_data` performs no exclusion at all (its keys are exactly the
parseable sheets' names). -/
theorem c1_sheet7_exclusion_amended (wb : Workbook) (m : List (String × DataFrame))
    (hm : load_default_data wb = some m) :
    (∀ p ∈ m, p.1 ≠ "Sheet7") ∧
    (∀ sheets, wb.openResult = .ok sheets →
      ∀ n d, ((n, d) ∈ m ↔ (n, Except.ok d) ∈ sheets ∧ n ≠ "Sheet7")) ∧
    (∀ sheets, wb.openResult = .ok sheets →
      ∀ n d, ((n, d) ∈ (load_data wb).toOption.getD [] ↔ (n, Except.ok d) ∈ sheets)) := by
  cases ho : wb.openResult with
  | error e => simp [load_default_data, ho] at hm
  | ok sheets0 =>
    simp only [load_default_data, ho] at hm
    by_cases hall : sheets0.all (fun p => p.2.isOk) = true
    · rw [if_pos hall] at hm
      have hme : m = (sheets0.filterMap (fun p =>
          match p.2 with
          | .ok d => some (p.1, d)
          | .error _ => none)).filter (fun p => p.1 ≠ "Sheet7") := by
        cases hm; rfl
      have hmemfm : ∀ n d, ((n, d) ∈ sheets0.filterMap (fun p =>
          match p.2 with
          | .ok d => some (p.1, d)
          | .error _ => none) ↔ (n, Except.ok d) ∈ sheets0) := by
        intro n d
        rw [List.mem_filterMap]
        constructor
        · rintro ⟨⟨n', pe⟩, hp, hf⟩
          cases pe with
          | ok d' =>
            simp only [Option.some.injEq, Prod.mk.injEq] at hf
            rw [← hf.1, ← hf.2]
            exact hp
          | error e' => simp at hf
        · intro hin
          exact ⟨(n, Except.ok d), hin, rfl⟩
      refine ⟨?_, ?_, ?_⟩
      · intro p hp
        rw [hme] at hp
        exact of_decide_eq_true (List.mem_filter.mp hp).2
      · intro sheets hs n d
        cases hs
        rw [hme, List.mem_filter]
        constructor
        · rintro ⟨h1, h2⟩
          exact ⟨(hmemfm n d).mp h1, of_decide_eq_true h2⟩
        · rintro ⟨h1, h2⟩
          exact ⟨(hmemfm n d).mpr h1, decide_eq_true h2⟩
      · intro sheets hs n d
        cases hs
        unfold load_data
        rw [ho]
        show (n, d) ∈ List.filterMap _ sheets0 ↔ _
        exact hmemfm n d
    · rw [if_neg hall] at hm
      simp at hm

/-- Witness for C1 at a concrete workbook with a placeholder and a real
sheet: the surviving sheet's name is not `"Sheet7"`. -/
theorem c1_sheet7_witness :
    (("A", df0) : String × DataFrame).1 ≠ "Sheet7" :=
  (c1_sheet7_exclusion_amended wbMix [("A", df0)] rfl).1 ("A", df0) (by decide)

/-! ## C9: the load failure policy -/

/-- C9: `load_data` absorbs sheet-level failures but propagates
workbook-level failures: when the workbook opens, the result is `ok` and
contains exactly the sheets that parsed (failed sheets are omitted,
everything else is loaded); when the workbook cannot be opened, the
error is re-raised to the caller. -/
theorem c9_load_failure_policy (wb : Workbook) :
    (∀ e, wb.openResult = .error e → load_data wb = .error e) ∧
    (∀ sheets, wb.openResult = .ok sheets →
      ∃ m, load_data wb = .ok m ∧
        ∀ n d, ((n, d) ∈ m ↔ (n, Except.ok d) ∈ sheets)) := by
  constructor
  · intro e he
    unfold load_data
    rw [he]
  · intro sheets hs
    refine ⟨_, by unfold load_data; rw [hs], ?_⟩
    intro n d
    rw [List.mem_filterMap]
    constructor
    · rintro ⟨⟨n', pe⟩, hp, hf⟩
      cases pe with
      | ok d' =>
        simp only [Option.some.injEq, Prod.mk.injEq] at hf
        rw [← hf.1, ← hf.2]
        exact hp
      | error e' => simp at hf
    · intro hin
      exact ⟨(n, Except.ok d), hin, rfl⟩

/-- Witness for C9: a workbook that fails to open propagates its error,
and one with a broken sheet still loads the rest. -/
theorem c9_load_failure_witness :
    load_data ⟨.error "file unreadable"⟩ = .error "file unreadable" ∧
    ∃ m, load_data ⟨.ok [("bad", .error "parse"), ("A", .ok df0)]⟩ = .ok m ∧
      ∀ n d, ((n, d) ∈ m ↔
        (n, Except.ok d) ∈ [("bad", Except.error "parse"), ("A", Except.ok df0)]) :=
  ⟨(c9_load_failure_policy ⟨.error "file unreadable"⟩).1 "file unreadable" rfl,
   (c9_load_failure_policy ⟨.ok [("bad", .error "parse"), ("A", .ok df0)]⟩).2
     [("bad", .error "parse"), ("A", .ok df0)] rfl⟩

/-! ## C6: cross-session identifier normalization -/

/-- C6 counterexample: in the spec's two-sheet scenario the normalized
identifiers of sheet A are `"101"`, `"102.0"`, `"103"` — `astype(str)`
stringifies the float `102.0` with its trailing `.0`, so no identifier
`"102"` exists in session A at all (the claim asserts it is present
there). -/
theorem c6_identifier_counterexample :
    load_data wbAB = .ok [("A", dfA), ("B", dfB)] ∧
    idsOf (clean_data dfA) = ["101", "102.0", "103"] ∧
    idsOf (clean_data dfB) = ["101", "104"] ∧
    "102" ∉ idsOf (clean_data dfA) := by
  refine ⟨rfl, by decide, by decide, by decide⟩

/-- C6 amended: after normalization the identifier `"101"` is present in
both sessions, while `"102.0"` (the stringified float `102.0`) and
`"103"` are distinct identifiers present only in session A. -/
theorem c6_identifier_amended :
    "101" ∈ idsOf (clean_data dfA) ∧
    "101" ∈ idsOf (clean_data dfB) ∧
    "102.0" ∈ idsOf (clean_data dfA) ∧
    "102.0" ∉ idsOf (clean_data dfB) ∧
    "103" ∈ idsOf (clean_data dfA) ∧
    "103" ∉ idsOf (clean_data dfB) ∧
    ("102.0" : String) ≠ "103" := by
  refine ⟨by decide, by decide, by decide, by decide, by decide, by decide, by decide⟩

/-! ## C2 and C8 counterexamples -/

/-- C2 counterexample: a negative gift amount flows straight into
`Total_All_Giving`, so the claimed invariant `Total_All_Giving ≥ 0` fails
on the code. -/
theorem c2_total_giving_counterexample :
    lookupCol (clean_data dfNeg) "Total_All_Giving" = some ⟨.i64, [.int (-5)]⟩ ∧
    cellRat (.int (-5)) < 0 := by
  constructor
  · decide
  · show ((-5 : Int) : ℚ) < 0
    norm_num

/-- C8 counterexample: the source matches `'Gift' in col or 'Ask' in col`
case-sensitively, so a column named `"gift"` is not parsed at all — its
currency text survives normalization unchanged, although the claimed
case-insensitive rule would have parsed it (the cell parses to `1` when
the amount rule is applied to it). -/
theorem c8_currency_counterexample :
    lookupCol (clean_data dfg) "gift" = some ⟨.obj, [.str "$1"]⟩ ∧
    strContains "gift" "Gift" = false ∧
    pyToNumericCell (stripAmountChars (.str "$1")) = .int 1 := by
  refine ⟨by decide, by decide, by decide⟩

/-! ## C10: `clean_data` leaves the caller's dataframe unchanged -/

/-- C10: executing `clean_data` against a store mutates only the freshly
allocated copy: the caller's reference holds the same dataframe before
and after, and the returned reference holds exactly the pure
`clean_data` result. -/
theorem c10_clean_data_frame (σ : PdStore) (r : Nat) (h : r < σ.next) :
    (clean_data_prog σ r).1.mem r = σ.mem r ∧
    (clean_data_prog σ r).1.mem (clean_data_prog σ r).2 = clean_data (σ.mem r) := by
  have hne : r ≠ σ.next := by omega
  constructor
  · simp [clean_data_prog, storeSet, Function.update_same,
      Function.update_noteq hne]
  · simp [clean_data_prog, storeSet, Function.update_same, clean_data]

/-- Witness for C10 at a concrete store holding one dataframe. -/
theorem c10_clean_data_frame_witness :
    (clean_data_prog ⟨fun _ => dfW, 1⟩ 0).1.mem 0 = dfW ∧
    (clean_data_prog ⟨fun _ => dfW, 1⟩ 0).1.mem
      (clean_data_prog ⟨fun _ => dfW, 1⟩ 0).2 = clean_data dfW :=
  c10_clean_data_frame ⟨fun _ => dfW, 1⟩ 0 (by decide)

/-! ## C8 amended: the currency-parsing rule as the code implements it -/

/-- The per-cell currency transform of the amount step: stringify, strip
`$` and `,`, coerce to numeric. -/
def amountCellFn (v : CVal) : CVal :=
  pyToNumericCell (stripAmountChars v)

theorem amountCol_vals (c : Col) :
    (amountCol c).vals = c.vals.map amountCellFn := by
  unfold amountCol toNumericCol amountCellFn
  simp [List.map_map]

/-- C8 amended: currency parsing applies to every text-valued (object)
column whose name contains `"Gift"` or `"Ask"` case-sensitively, is not a
date column, and is not one of the exempted categorical columns; such a
column's cells are stringified, stripped of `$` and `,`, and coerced, with
`"$12,345.67"` parsing to `12345.67`, `"N/A"` becoming missing, and the
empty string becoming missing. -/
theorem c8_currency_amended (df : DataFrame) (n : String) (c : Col)
    (hga : (strContains n "Gift" || strContains n "Ask") = true)
    (hnd : isDateName n = false)
    (hwe : n ≠ "WE Range") (hlt : n ≠ "LT Giving")
    (hobj : c.dtype = .obj)
    (hl : lookupCol df n = some c) :
    lookupCol (clean_data df) n = some (amountCol ⟨.obj, c.vals.map replaceEmptyCell⟩) ∧
    (amountCol ⟨.obj, c.vals.map replaceEmptyCell⟩).vals =
      c.vals.map (fun v => amountCellFn (replaceEmptyCell v)) ∧
    amountCellFn (.str "$12,345.67") = .float 1234567 2 ∧
    cellRat (.float 1234567 2) = 12345.67 ∧
    amountCellFn (.str "N/A") = .nan ∧
    amountCellFn (replaceEmptyCell (.str "")) = .nan := by
  have hID : n ≠ "ID" := by rintro rfl; exact absurd hga (by decide)
  have hCL : n ≠ "CL YR" := by rintro rfl; exact absurd hga (by decide)
  have hSP : n ≠ "SP CL YR" := by rintro rfl; exact absurd hga (by decide)
  have hDec : n ≠ "Decade" := by rintro rfl; exact absurd hga (by decide)
  have hSt : n ≠ "State" := by rintro rfl; exact absurd hga (by decide)
  have hTot : n ≠ "Total_All_Giving" := by rintro rfl; exact absurd hga (by decide)
  have e1 : lookupCol (stepEmpty df) n = some ⟨c.dtype, c.vals.map replaceEmptyCell⟩ := by
    unfold stepEmpty
    rw [lookupCol_mapCols, hl]
    rfl
  have e2 : lookupCol (stepID (stepEmpty df)) n =
      some ⟨c.dtype, c.vals.map replaceEmptyCell⟩ := by
    unfold stepID
    rw [lookupCol_mapCols, e1]
    simp [hID]
  have e3 : lookupCol (stepYears (stepID (stepEmpty df))) n =
      some ⟨c.dtype, c.vals.map replaceEmptyCell⟩ := by
    unfold stepYears
    rw [lookupCol_mapCols, e2]
    simp [hCL, hSP]
  have e4 : lookupCol (stepDates (stepYears (stepID (stepEmpty df)))) n =
      some ⟨c.dtype, c.vals.map replaceEmptyCell⟩ := by
    unfold stepDates
    rw [lookupCol_mapCols, e3]
    simp [hnd]
  have e5 : lookupCol (stepAmounts (stepDates (stepYears (stepID (stepEmpty df))))) n =
      some (amountCol ⟨.obj, c.vals.map replaceEmptyCell⟩) := by
    unfold stepAmounts
    rw [lookupCol_mapCols, e4]
    simp only [Option.map_some']
    have hcond : (isAmountName n && (⟨c.dtype, c.vals.map replaceEmptyCell⟩ : Col).dtype = .obj) = true := by
      simp [isAmountName, hga, hnd, hobj]
    rw [if_pos hcond, if_neg (by rintro (h | h) <;> [exact hwe h; exact hlt h])]
    rw [hobj]
  have e6 : lookupCol (stepDecade (stepAmounts (stepDates (stepYears (stepID (stepEmpty df)))))) n =
      some (amountCol ⟨.obj, c.vals.map replaceEmptyCell⟩) := by
    unfold stepDecade
    cases hcl : lookupCol (stepAmounts (stepDates (stepYears (stepID (stepEmpty df))))) "CL YR" with
    | none => exact e5
    | some y => rw [lookupCol_setCol_ne _ "Decade" _ hDec]; exact e5
  have e7 : lookupCol (stepState (stepDecade (stepAmounts (stepDates (stepYears (stepID (stepEmpty df))))))) n =
      some (amountCol ⟨.obj, c.vals.map replaceEmptyCell⟩) := by
    unfold stepState
    rw [lookupCol_mapCols, e6]
    simp [hSt]
  refine ⟨?_, ?_, by decide, ?_, by decide, by decide⟩
  · show lookupCol (stepTotal _) n = _
    unfold stepTotal
    dsimp only
    split_ifs
    · exact e7
    · rw [lookupCol_setCol_ne _ "Total_All_Giving" _ hTot]; exact e7
  · rw [amountCol_vals]
    simp [List.map_map]
  · show ((1234567 : Int) : ℚ) / (10 : ℚ) ^ 2 = 12345.67
    norm_num

/-- Witness for C8 at a concrete one-column dataframe. -/
theorem c8_currency_witness :
    lookupCol (clean_data dfW) "Gift 2023" = some ⟨.f64, [.float 1234567 2]⟩ :=
  ((c8_currency_amended dfW "Gift 2023" ⟨.obj, [.str "$12,345.67"]⟩
      (by decide) (by decide) (by decide) (by decide) rfl (by decide)).1).trans
    (by decide)

/-! ## C2 amended: what `Total_All_Giving` actually satisfies -/

/-- A column is int64-well-typed: int64 dtype implies every cell is an
int (as pandas guarantees for real int64 columns). -/
def colIntOk (c : Col) : Bool :=
  c.dtype ≠ .i64 || c.vals.all cellIsInt

/-- Every int64 column of the dataframe holds only ints. -/
def intColsOk (df : DataFrame) : Bool :=
  df.cols.all (fun p => colIntOk p.2)

theorem colIntOk_toNumericCol (c : Col) : colIntOk (toNumericCol c) = true := by
  unfold toNumericCol colIntOk
  by_cases h : (c.vals.map pyToNumericCell).all cellIsInt = true
  · simp [h]
  · have hf : (c.vals.map pyToNumericCell).all cellIsInt = false := by
      revert h; cases (c.vals.map pyToNumericCell).all cellIsInt <;> simp
    simp [hf]

theorem colIntOk_replaceEmpty (c : Col) (h : colIntOk c = true) :
    colIntOk ⟨c.dtype, c.vals.map replaceEmptyCell⟩ = true := by
  unfold colIntOk at h ⊢
  rcases Bool.or_eq_true_iff.mp h with h1 | h1
  · simp only [h1, Bool.true_or]
  · refine Bool.or_eq_true_iff.mpr (Or.inr ?_)
    rw [List.all_eq_true] at h1 ⊢
    intro v hv
    rw [List.mem_map] at hv
    obtain ⟨w, hw, he⟩ := hv
    have := h1 w hw
    cases w <;> simp_all [replaceEmptyCell, cellIsInt]

theorem colIntOk_fillUnknown (c : Col) (h : colIntOk c = true) :
    colIntOk (fillUnknownCol c) = true := by
  unfold colIntOk at h ⊢
  unfold fillUnknownCol
  by_cases hn : c.vals.any (fun v => v = .nan) = true
  · simp [hn]
  · have hf : c.vals.any (fun v => v = .nan) = false := by
      revert hn; cases c.vals.any (fun v => v = .nan) <;> simp
    simp only [hf, Bool.false_eq_true, if_false]
    rcases Bool.or_eq_true_iff.mp h with h1 | h1
    · simp [h1]
    · refine Bool.or_eq_true_iff.mpr (Or.inr ?_)
      rw [List.all_eq_true] at h1 ⊢
      intro v hv
      rw [List.mem_map] at hv
      obtain ⟨w, hw, he⟩ := hv
      have := h1 w hw
      cases w <;> simp_all [cellIsInt]

theorem colIntOk_totalCol (n : Nat) (g : List (String × Col)) :
    colIntOk (totalCol n g) = true := by
  unfold totalCol colIntOk
  split_ifs
  · refine Bool.or_eq_true_iff.mpr (Or.inr ?_)
    rw [List.all_eq_true]
    intro v hv
    rw [List.mem_map] at hv
    obtain ⟨i, _, he⟩ := hv
    rw [← he]
    rfl
  · simp

theorem intColsOk_mapCols {f : String → Col → Col} {df : DataFrame}
    (h : intColsOk df = true)
    (hf : ∀ m c0, colIntOk c0 = true → colIntOk (f m c0) = true) :
    intColsOk (mapCols f df) = true := by
  unfold intColsOk at h ⊢
  rw [List.all_eq_true] at h ⊢
  intro p hp
  obtain ⟨q, hq, he⟩ := mem_mapCols hp
  rw [he]
  exact hf q.1 q.2 (h q hq)

theorem intColsOk_setCol {df : DataFrame} {k : String} {c : Col}
    (h : intColsOk df = true) (hc : colIntOk c = true) :
    intColsOk (setCol df k c) = true := by
  unfold intColsOk at h ⊢
  rw [List.all_eq_true] at h ⊢
  intro p hp
  rcases mem_setCol hp with ⟨hin, _⟩ | he
  · exact h p hin
  · rw [he]; exact hc

theorem intColsOk_clean_pre (df : DataFrame) (h : intColsOk df = true) :
    intColsOk (stepState (stepDecade (stepAmounts (stepDates (stepYears
      (stepID (stepEmpty df))))))) = true := by
  have h1 : intColsOk (stepEmpty df) = true := by
    refine intColsOk_mapCols h (fun m c0 hc => colIntOk_replaceEmpty c0 hc)
  have h2 : intColsOk (stepID (stepEmpty df)) = true := by
    refine intColsOk_mapCols h1 (fun m c0 hc => ?_)
    by_cases hm : m = "ID"
    · simp only [hm, if_pos]
      rfl
    · simpa [hm] using hc
  have h3 : intColsOk (stepYears (stepID (stepEmpty df))) = true := by
    refine intColsOk_mapCols h2 (fun m c0 hc => ?_)
    by_cases hm : m = "CL YR" ∨ m = "SP CL YR"
    · simp only [if_pos hm]
      exact colIntOk_toNumericCol c0
    · simpa [if_neg hm] using hc
  have h4 : intColsOk (stepDates (stepYears (stepID (stepEmpty df)))) = true := by
    refine intColsOk_mapCols h3 (fun m c0 hc => ?_)
    by_cases hm : isDateName m = true
    · simp only [if_pos hm]
      rfl
    · simpa [hm] using hc
  have h5 : intColsOk (stepAmounts (stepDates (stepYears (stepID (stepEmpty df))))) = true := by
    refine intColsOk_mapCols h4 (fun m c0 hc => ?_)
    by_cases hm : (isAmountName m && c0.dtype = .obj) = true
    · simp only [if_pos hm]
      by_cases hx : m = "WE Range" ∨ m = "LT Giving"
      · simpa [if_pos hx] using hc
      · simp only [if_neg hx]
        exact colIntOk_toNumericCol _
    · simpa [hm] using hc
  have h6 : intColsOk (stepDecade (stepAmounts (stepDates (stepYears (stepID (stepEmpty df)))))) = true := by
    unfold stepDecade
    cases lookupCol (stepAmounts (stepDates (stepYears (stepID (stepEmpty df))))) "CL YR" with
    | none => exact h5
    | some y => exact intColsOk_setCol h5 rfl
  refine intColsOk_mapCols h6 (fun m c0 hc => ?_)
  by_cases hm : m = "State"
  · simp only [hm, if_pos]
    exact colIntOk_fillUnknown c0 hc
  · simpa [hm] using hc

/-- Rational value of an exact-decimal accumulator. -/
def pairRat (a : Int × Nat) : ℚ :=
  (a.1 : ℚ) / (10 : ℚ) ^ a.2

theorem pairRat_decAdd (a : Int × Nat) (v : CVal) :
    pairRat (decAdd a v) = pairRat a + cellRat v := by
  cases v with
  | int z =>
    unfold decAdd pairRat cellRat
    have h10 : ((10 : ℚ) ^ a.2) ≠ 0 := by positivity
    push_cast
    field_simp
  | float m e =>
    unfold decAdd pairRat cellRat
    dsimp only
    have h1 : (10 : ℚ) ^ (max a.2 e - a.2) * (10 : ℚ) ^ a.2 = (10 : ℚ) ^ (max a.2 e) := by
      rw [← pow_add]
      congr 1
      omega
    have h2 : (10 : ℚ) ^ (max a.2 e - e) * (10 : ℚ) ^ e = (10 : ℚ) ^ (max a.2 e) := by
      rw [← pow_add]
      congr 1
      omega
    have h10a : ((10 : ℚ) ^ a.2) ≠ 0 := by positivity
    have h10e : ((10 : ℚ) ^ e) ≠ 0 := by positivity
    have h10m : ((10 : ℚ) ^ (max a.2 e)) ≠ 0 := by positivity
    rw [div_add_div _ _ h10a h10e, div_eq_div_iff h10m (by positivity)]
    push_cast
    linear_combination ((a.1 : ℚ) * (10 : ℚ) ^ e) * h1 + ((m : ℚ) * (10 : ℚ) ^ a.2) * h2
  | nan => simp [decAdd, cellRat]
  | str s => simp [decAdd, cellRat]
  | date d => simp [decAdd, cellRat]

theorem foldl_cellRat_shift (g : List (String × Col)) (i : Nat) :
    ∀ b : ℚ, g.foldl (fun a p => a + cellRat (p.2.vals.getD i .nan)) b =
      b + g.foldl (fun a p => a + cellRat (p.2.vals.getD i .nan)) 0 := by
  induction g with
  | nil => intro b; simp
  | cons p t ih =>
    intro b
    simp only [List.foldl_cons]
    rw [ih (b + cellRat (p.2.vals.getD i .nan)), ih (0 + cellRat (p.2.vals.getD i .nan))]
    ring

theorem pairRat_foldl_decAdd (g : List (String × Col)) (i : Nat) :
    ∀ a : Int × Nat,
      pairRat (g.foldl (fun a p => decAdd a (p.2.vals.getD i .nan)) a) =
        pairRat a + g.foldl (fun a p => a + cellRat (p.2.vals.getD i .nan)) 0 := by
  induction g with
  | nil => intro a; simp
  | cons p t ih =>
    intro a
    simp only [List.foldl_cons]
    rw [ih (decAdd a (p.2.vals.getD i .nan)), pairRat_decAdd]
    rw [foldl_cellRat_shift t i (0 + cellRat (p.2.vals.getD i .nan))]
    ring

theorem intSum_foldl (g : List (String × Col)) (i : Nat)
    (h : ∀ p ∈ g, cellRat (p.2.vals.getD i .nan) = (cellInt (p.2.vals.getD i .nan) : ℚ)) :
    ∀ a : Int,
      ((g.foldl (fun a p => a + cellInt (p.2.vals.getD i .nan)) a : Int) : ℚ) =
        (a : ℚ) + g.foldl (fun a p => a + cellRat (p.2.vals.getD i .nan)) 0 := by
  induction g with
  | nil => intro a; simp
  | cons p t ih =>
    intro a
    simp only [List.foldl_cons]
    rw [ih (fun q hq => h q (List.mem_cons_of_mem p hq)) (a + cellInt (p.2.vals.getD i .nan))]
    rw [foldl_cellRat_shift t i (0 + cellRat (p.2.vals.getD i .nan))]
    rw [h p (List.mem_cons_self p t)]
    push_cast
    ring

theorem foldl_cellRat_nonneg (g : List (String × Col)) (i : Nat)
    (h : ∀ p ∈ g, 0 ≤ cellRat (p.2.vals.getD i .nan)) :
    ∀ a : ℚ, 0 ≤ a → 0 ≤ g.foldl (fun a p => a + cellRat (p.2.vals.getD i .nan)) a := by
  induction g with
  | nil => intro a ha; simpa using ha
  | cons p t ih =>
    intro a ha
    simp only [List.foldl_cons]
    refine ih (fun q hq => h q (List.mem_cons_of_mem p hq)) _ ?_
    have := h p (List.mem_cons_self p t)
    linarith

/-- The cell the totals column holds at row `i`. -/
theorem totalCol_getD (n : Nat) (g : List (String × Col)) (i : Nat) (hi : i < n) :
    (totalCol n g).vals.getD i .nan =
      (if g.all (fun p => p.2.dtype = .i64) then
        .int (g.foldl (fun a p => a + cellInt (p.2.vals.getD i .nan)) 0)
      else
        CVal.float (g.foldl (fun a p => decAdd a (p.2.vals.getD i .nan)) ((0 : Int), (0 : Nat))).1
          (g.foldl (fun a p => decAdd a (p.2.vals.getD i .nan)) ((0 : Int), (0 : Nat))).2) := by
  unfold totalCol
  have hr : ∀ w : CVal, ∀ f : Nat → CVal, ((List.range n).map f).getD i w = f i := by
    intro w f
    rw [List.getD_eq_getElem?_getD, List.getElem?_map, List.getElem?_range hi]
    rfl
  split_ifs with hd
  · simp only [hd, if_true]
    exact hr .nan _
  · simp only [hd]
    exact hr .nan _

theorem totalCol_length (n : Nat) (g : List (String × Col)) :
    (totalCol n g).vals.length = n := by
  unfold totalCol
  split_ifs <;> simp

/-- Setting `Total_All_Giving` does not change which columns classify as
giving columns. -/
theorem givingColsOf_setCol_total (df : DataFrame) (c : Col) :
    givingColsOf (setCol df "Total_All_Giving" c) = givingColsOf df := by
  have hpred : ∀ c0 : Col, givingPred "Total_All_Giving" c0 = false := by
    intro c0
    unfold givingPred
    have : strContains "Total_All_Giving" "Gifts" = false := by decide
    have h2 : strContains "Total_All_Giving" "Gift" = false := by decide
    simp [this, h2]
  unfold setCol givingColsOf
  split
  · induction df.cols with
    | nil => rfl
    | cons p t ih =>
      simp only [List.map_cons, List.filter_cons]
      by_cases hk : p.1 = "Total_All_Giving"
      · rw [if_pos hk]
        simp only [hk, hpred]
        simpa using ih
      · rw [if_neg hk]
        cases hgp : givingPred p.1 p.2 <;> simp [hgp, ih]
  · simp only
    rw [List.filter_append]
    simp [hpred]

/-- `stepTotal` writes exactly the row-wise giving sum when a giving
column exists. -/
theorem lookupCol_stepTotal (df : DataFrame) (hne : givingColsOf df ≠ []) :
    lookupCol (stepTotal df) "Total_All_Giving" =
      some (totalCol df.nrows (givingColsOf df)) := by
  unfold stepTotal
  dsimp only
  rw [if_neg (by simpa [List.isEmpty_iff] using hne)]
  exact lookupCol_setCol_self _ _ _

theorem givingColsOf_stepTotal (df : DataFrame) :
    givingColsOf (stepTotal df) = givingColsOf df := by
  unfold stepTotal
  dsimp only
  split_ifs
  · rfl
  · exact givingColsOf_setCol_total df _

theorem stepTotal_nrows (df : DataFrame) : (stepTotal df).nrows = df.nrows := by
  unfold stepTotal
  dsimp only
  split_ifs
  · rfl
  · exact setCol_nrows _ _ _

theorem stepDecade_nrows (df : DataFrame) : (stepDecade df).nrows = df.nrows := by
  unfold stepDecade
  cases lookupCol df "CL YR" with
  | none => rfl
  | some c => exact setCol_nrows _ _ _

theorem clean_data_nrows (df : DataFrame) : (clean_data df).nrows = df.nrows := by
  unfold clean_data
  rw [stepTotal_nrows]
  unfold stepState
  rw [mapCols_nrows, stepDecade_nrows]
  unfold stepAmounts stepDates stepYears stepID stepEmpty
  rfl

/-- Replace the contents of every column named `n` (modelling a caller
changing that column's values before normalization). -/
def modCol (df : DataFrame) (n : String) (c : Col) : DataFrame :=
  mapCols (fun m c0 => if m = n then c else c0) df

/-- Two column lists that agree everywhere except possibly at columns
named `n` (names agree pointwise everywhere). -/
def EqExceptN (n : String) (l l' : List (String × Col)) : Prop :=
  List.Forall₂ (fun p q => p.1 = q.1 ∧ (p.1 ≠ n → p = q)) l l'

theorem eqExceptN_modCol (df : DataFrame) (n : String) (c : Col) :
    EqExceptN n (modCol df n c).cols df.cols := by
  unfold modCol mapCols EqExceptN
  induction df.cols with
  | nil => exact List.Forall₂.nil
  | cons p t ih =>
    refine List.Forall₂.cons ⟨rfl, fun hne => ?_⟩ ih
    have hne' : p.1 ≠ n := hne
    show (p.1, if p.1 = n then c else p.2) = p
    rw [if_neg hne']

theorem eqExceptN_keyedMap {n : String} {l l' : List (String × Col)}
    (g : String → Col → Col) (h : EqExceptN n l l') :
    EqExceptN n (l.map (fun p => (p.1, g p.1 p.2))) (l'.map (fun p => (p.1, g p.1 p.2))) := by
  induction h with
  | nil => exact List.Forall₂.nil
  | cons hpq hrest ih =>
    refine List.Forall₂.cons ⟨by simp [hpq.1], fun hne => ?_⟩ ih
    have := hpq.2 (by simpa using hne)
    rw [this]

theorem eqExceptN_mapCols {n : String} {x y : DataFrame}
    (f : String → Col → Col) (h : EqExceptN n x.cols y.cols) :
    EqExceptN n (mapCols f x).cols (mapCols f y).cols :=
  eqExceptN_keyedMap (fun m c0 => f m c0) h

theorem findVal_eqExceptN {n k : String} {l l' : List (String × Col)}
    (h : EqExceptN n l l') (hk : k ≠ n) : findVal l k = findVal l' k := by
  induction h with
  | nil => rfl
  | cons hpq hrest ih =>
    rename_i p q t t'
    unfold findVal at ih ⊢
    rw [List.find?_cons, List.find?_cons]
    by_cases hp : p.1 = k
    · have hq : q.1 = k := hpq.1 ▸ hp
      rw [hpq.2 (hp ▸ hk)]
      simp [hq]
    · have hq : ¬(q.1 = k) := fun hx => hp ((hpq.1).trans hx)
      simp only [hp, hq, decide_eq_false, Bool.false_eq_true]
      exact ih

theorem lookupCol_eqExceptN {n k : String} {x y : DataFrame}
    (h : EqExceptN n x.cols y.cols) (hk : k ≠ n) :
    lookupCol x k = lookupCol y k := by
  rw [lookupCol_eq_findVal, lookupCol_eq_findVal]
  exact findVal_eqExceptN h hk

theorem eqExceptN_setCol {n k : String} {x y : DataFrame} (c : Col)
    (h : EqExceptN n x.cols y.cols) (hk : k ≠ n) :
    EqExceptN n (setCol x k c).cols (setCol y k c).cols := by
  have hhas : hasCol x k = hasCol y k := by
    unfold hasCol
    rw [lookupCol_eqExceptN h hk]
  unfold setCol
  rw [hhas]
  by_cases hx : hasCol y k = true
  · rw [if_pos hx, if_pos hx]
    exact eqExceptN_keyedMap (fun m c0 => if m = k then c else c0) h
  · rw [if_neg hx, if_neg hx]
    unfold EqExceptN
    exact List.rel_append h (List.Forall₂.cons ⟨rfl, fun _ => rfl⟩ List.Forall₂.nil)

theorem filter_giving_eqExceptN {n : String} {l l' : List (String × Col)}
    (h : EqExceptN n l l') (hn : ∀ c0 : Col, givingPred n c0 = false) :
    l.filter (fun p => givingPred p.1 p.2) = l'.filter (fun p => givingPred p.1 p.2) := by
  induction h with
  | nil => rfl
  | cons hpq hrest ih =>
    rename_i p q t t'
    rw [List.filter_cons, List.filter_cons]
    by_cases hp : p.1 = n
    · have h1 : givingPred p.1 p.2 = false := hp ▸ hn p.2
      have h2 : givingPred q.1 q.2 = false := (hpq.1 ▸ hp : q.1 = n) ▸ hn q.2
      simp only [h1, h2, Bool.false_eq_true, if_false]
      exact ih
    · have hpq' := hpq.2 hp
      rw [hpq']
      cases hg : givingPred q.1 q.2 <;> simp only [hg, Bool.false_eq_true, if_false, if_true] <;>
        simp [ih]

/-- The normalization pipeline before the `Total_All_Giving` step. -/
def cleanPre (df : DataFrame) : DataFrame :=
  stepState (stepDecade (stepAmounts (stepDates (stepYears (stepID (stepEmpty df))))))

theorem clean_data_eq_stepTotal (df : DataFrame) :
    clean_data df = stepTotal (cleanPre df) := rfl

theorem cleanPre_nrows (df : DataFrame) : (cleanPre df).nrows = df.nrows := by
  unfold cleanPre stepState
  rw [mapCols_nrows, stepDecade_nrows]
  unfold stepAmounts stepDates stepYears stepID stepEmpty
  rfl

theorem cleanPre_eqExceptN (df : DataFrame) (k : String) (c' : Col)
    (hCL : k ≠ "CL YR") (hDec : k ≠ "Decade") :
    EqExceptN k (cleanPre (modCol df k c')).cols (cleanPre df).cols := by
  have h0 := eqExceptN_modCol df k c'
  have h1 := eqExceptN_mapCols (fun _ c => (⟨c.dtype, c.vals.map replaceEmptyCell⟩ : Col)) h0
  have h2 := eqExceptN_mapCols (fun n c => if n = "ID" then astypeStrCol c else c) h1
  have h3 := eqExceptN_mapCols
    (fun n c => if n = "CL YR" ∨ n = "SP CL YR" then toNumericCol c else c) h2
  have h4 := eqExceptN_mapCols (fun n c => if isDateName n then toDatetimeCol c else c) h3
  have h5 := eqExceptN_mapCols (fun n c =>
    if isAmountName n && c.dtype = .obj then
      if n = "WE Range" ∨ n = "LT Giving" then c else amountCol c
    else c) h4
  have hcl : lookupCol (stepAmounts (stepDates (stepYears (stepID (stepEmpty (modCol df k c')))))) "CL YR" =
      lookupCol (stepAmounts (stepDates (stepYears (stepID (stepEmpty df))))) "CL YR" :=
    lookupCol_eqExceptN h5 hCL.symm
  have h6 : EqExceptN k
      (stepDecade (stepAmounts (stepDates (stepYears (stepID (stepEmpty (modCol df k c'))))))).cols
      (stepDecade (stepAmounts (stepDates (stepYears (stepID (stepEmpty df)))))).cols := by
    unfold stepDecade
    rw [hcl]
    cases hv : lookupCol (stepAmounts (stepDates (stepYears (stepID (stepEmpty df))))) "CL YR" with
    | none => exact h5
    | some y =>
      have hy : lookupCol (stepAmounts (stepDates (stepYears (stepID (stepEmpty (modCol df k c')))))) "CL YR" = some y :=
        hcl.trans hv
      exact eqExceptN_setCol _ h5 hDec.symm
  exact eqExceptN_mapCols (fun n c => if n = "State" then fillUnknownCol c else c) h6

/-- Changing the contents of a pledge-named or date-named column does not
change the `Total_All_Giving` column computed by `clean_data`. -/
theorem cleanData_modCol_total (df : DataFrame) (k : String) (c' : Col)
    (hkp : (strContains k "Pledge" || isDateName k) = true) :
    lookupCol (clean_data (modCol df k c')) "Total_All_Giving" =
      lookupCol (clean_data df) "Total_All_Giving" := by
  have hCL : k ≠ "CL YR" := by rintro rfl; exact absurd hkp (by decide)
  have hDec : k ≠ "Decade" := by rintro rfl; exact absurd hkp (by decide)
  have hTot : k ≠ "Total_All_Giving" := by rintro rfl; exact absurd hkp (by decide)
  have hE := cleanPre_eqExceptN df k c' hCL hDec
  have hpred : ∀ c0 : Col, givingPred k c0 = false := by
    intro c0
    unfold givingPred
    rcases Bool.or_eq_true_iff.mp hkp with h | h
    · simp [h]
    · simp [h]
  have hg : givingColsOf (cleanPre (modCol df k c')) = givingColsOf (cleanPre df) :=
    filter_giving_eqExceptN hE hpred
  have hnr : (cleanPre (modCol df k c')).nrows = (cleanPre df).nrows := by
    rw [cleanPre_nrows, cleanPre_nrows]
    rfl
  rw [clean_data_eq_stepTotal, clean_data_eq_stepTotal]
  unfold stepTotal givingColsOf
  dsimp only
  unfold givingColsOf at hg
  rw [hg, hnr]
  split_ifs with he
  · exact lookupCol_eqExceptN hE hTot.symm
  · rw [lookupCol_setCol_self, lookupCol_setCol_self]

theorem cellRat_cellInt_getD (c : Col) (h : c.vals.all cellIsInt = true) (i : Nat) :
    cellRat (c.vals.getD i .nan) = ((cellInt (c.vals.getD i .nan) : Int) : ℚ) := by
  by_cases hi : i < c.vals.length
  · have hmem : c.vals.getD i .nan ∈ c.vals := by
      rw [List.getD_eq_getElem c.vals .nan hi]
      exact List.getElem_mem hi
    have hint := (List.all_eq_true.mp h) _ hmem
    cases hv : c.vals.getD i .nan <;> rw [hv] at hint <;>
      simp_all [cellIsInt, cellRat, cellInt]
  · rw [List.getD_eq_default c.vals .nan (by omega)]
    simp [cellRat, cellInt]

theorem cellRat_getD_nonneg (c : Col) (h : ∀ v ∈ c.vals, 0 ≤ cellRat v) (i : Nat) :
    0 ≤ cellRat (c.vals.getD i .nan) := by
  by_cases hi : i < c.vals.length
  · have hmem : c.vals.getD i .nan ∈ c.vals := by
      rw [List.getD_eq_getElem c.vals .nan hi]
      exact List.getElem_mem hi
    exact h _ hmem
  · rw [List.getD_eq_default c.vals .nan (by omega)]
    simp [cellRat]

theorem cellRat_float_pair (a : Int × Nat) : cellRat (.float a.1 a.2) = pairRat a := rfl

/-- C2 amended: on well-typed input (int64 columns hold ints, as pandas
guarantees), whenever any giving column exists the normalized table's
`Total_All_Giving` cell at each row equals the row-wise sum, missing
counted as zero, over exactly the columns classified as giving-amount
columns; it is nonnegative whenever every giving-column cell is
nonnegative (the code never clamps, so this condition is needed); and
changing the contents of a pledge-named or date-named column never
changes it. -/
theorem c2_total_giving_amended (df : DataFrame)
    (hWT : intColsOk df = true)
    (hne : givingColsOf (clean_data df) ≠ []) :
    ∃ tc, lookupCol (clean_data df) "Total_All_Giving" = some tc ∧
      tc.vals.length = (clean_data df).nrows ∧
      (∀ i, i < (clean_data df).nrows →
        cellRat (tc.vals.getD i .nan) =
          (givingColsOf (clean_data df)).foldl
            (fun a p => a + cellRat (p.2.vals.getD i .nan)) 0) ∧
      ((∀ p ∈ givingColsOf (clean_data df), ∀ v ∈ p.2.vals, 0 ≤ cellRat v) →
        ∀ i, 0 ≤ cellRat (tc.vals.getD i .nan)) ∧
      (∀ k c', (strContains k "Pledge" || isDateName k) = true →
        lookupCol (clean_data (modCol df k c')) "Total_All_Giving" = some tc) := by
  have hg0 : givingColsOf (clean_data df) = givingColsOf (cleanPre df) := by
    rw [clean_data_eq_stepTotal]
    exact givingColsOf_stepTotal _
  have hne' : givingColsOf (cleanPre df) ≠ [] := by
    rw [← hg0]
    exact hne
  have hlook : lookupCol (clean_data df) "Total_All_Giving" =
      some (totalCol (cleanPre df).nrows (givingColsOf (cleanPre df))) := by
    rw [clean_data_eq_stepTotal]
    exact lookupCol_stepTotal _ hne'
  have hIC : intColsOk (cleanPre df) = true := intColsOk_clean_pre df hWT
  have hlen : (totalCol (cleanPre df).nrows (givingColsOf (cleanPre df))).vals.length =
      (clean_data df).nrows := by
    rw [totalCol_length, clean_data_nrows, cleanPre_nrows]
  have hsum : ∀ i, i < (clean_data df).nrows →
      cellRat ((totalCol (cleanPre df).nrows (givingColsOf (cleanPre df))).vals.getD i .nan) =
        (givingColsOf (clean_data df)).foldl
          (fun a p => a + cellRat (p.2.vals.getD i .nan)) 0 := by
    intro i hi
    have hi' : i < (cleanPre df).nrows := by
      rw [clean_data_nrows] at hi
      rw [cleanPre_nrows]
      exact hi
    rw [totalCol_getD _ _ _ hi', hg0]
    split_ifs with hd
    · have hints : ∀ p ∈ givingColsOf (cleanPre df),
          cellRat (p.2.vals.getD i .nan) = ((cellInt (p.2.vals.getD i .nan) : Int) : ℚ) := by
        intro p hp
        have hmem : p ∈ (cleanPre df).cols := List.mem_of_mem_filter hp
        have hok := (List.all_eq_true.mp hIC) p hmem
        have hdt : p.2.dtype = .i64 := of_decide_eq_true ((List.all_eq_true.mp hd) p hp)
        unfold colIntOk at hok
        rcases Bool.or_eq_true_iff.mp hok with h1 | h1
        · exact absurd hdt (by simpa using h1)
        · exact cellRat_cellInt_getD p.2 h1 i
      rw [show cellRat (CVal.int ((givingColsOf (cleanPre df)).foldl
          (fun a p => a + cellInt (p.2.vals.getD i .nan)) 0)) =
          (((givingColsOf (cleanPre df)).foldl
            (fun a p => a + cellInt (p.2.vals.getD i .nan)) 0 : Int) : ℚ) from rfl]
      rw [intSum_foldl _ i hints 0]
      simp
    · rw [cellRat_float_pair]
      rw [pairRat_foldl_decAdd _ i ((0 : Int), (0 : Nat))]
      simp [pairRat]
  refine ⟨_, hlook, hlen, hsum, ?_, ?_⟩
  · intro hpos i
    by_cases hi : i < (clean_data df).nrows
    · rw [hsum i hi]
      refine foldl_cellRat_nonneg _ i ?_ 0 le_rfl
      intro p hp
      exact cellRat_getD_nonneg p.2 (hpos p hp) i
    · rw [List.getD_eq_default _ _ (by rw [hlen]; omega)]
      simp [cellRat]
  · intro k c' hkp
    rw [cleanData_modCol_total df k c' hkp]
    exact hlook

/-- Witness for C2 at a concrete one-gift-column dataframe. -/
theorem c2_total_giving_witness :
    ∃ tc, lookupCol (clean_data dfW) "Total_All_Giving" = some tc ∧
      tc.vals.length = (clean_data dfW).nrows ∧
      (∀ i, i < (clean_data dfW).nrows →
        cellRat (tc.vals.getD i .nan) =
          (givingColsOf (clean_data dfW)).foldl
            (fun a p => a + cellRat (p.2.vals.getD i .nan)) 0) ∧
      ((∀ p ∈ givingColsOf (clean_data dfW), ∀ v ∈ p.2.vals, 0 ≤ cellRat v) →
        ∀ i, 0 ≤ cellRat (tc.vals.getD i .nan)) ∧
      (∀ k c', (strContains k "Pledge" || isDateName k) = true →
        lookupCol (clean_data (modCol dfW k c')) "Total_All_Giving" = some tc) :=
  c2_total_giving_amended dfW (by decide) (by decide)

/-! ## C7: idempotence of `clean_data`

The proof shows that every single normalization step leaves the output of
`clean_data` unchanged: each per-column rule is idempotent at the cell
level, and the derived `Decade` and `Total_All_Giving` columns are
recomputed to the very same values because their inputs are unchanged. -/

theorem toDigitsCore_len (b : Nat) : ∀ (f n : Nat) (ds : List Char),
    ds.length ≤ (Nat.toDigitsCore b f n ds).length := by
  intro f
  induction f with
  | zero => intro n ds; simp [Nat.toDigitsCore]
  | succ f ih =>
    intro n ds
    unfold Nat.toDigitsCore
    dsimp only
    split
    · simp
    · calc ds.length ≤ ((n % b).digitChar :: ds).length := by simp
        _ ≤ _ := ih _ _

theorem nat_repr_ne_empty (n : Nat) : Nat.repr n ≠ "" := by
  unfold Nat.repr
  intro h
  have hd : (Nat.toDigits 10 n).asString.data = ("" : String).data := congrArg String.data h
  unfold Nat.toDigits at hd
  unfold Nat.toDigitsCore at hd
  cases hsplit : n / 10 with
  | zero =>
    rw [hsplit] at hd
    simp [List.asString] at hd
  | succ k =>
    rw [hsplit] at hd
    simp [List.asString] at hd
    have h2 := toDigitsCore_len 10 n (k + 1) [Nat.digitChar (n % 10)]
    rw [hd] at h2
    simp at h2

theorem int_toString_ne_empty (z : Int) : toString z ≠ "" := by
  cases z with
  | ofNat n => exact nat_repr_ne_empty n
  | negSucc n =>
    show "-" ++ Nat.repr (n + 1) ≠ ""
    intro h
    have := congrArg String.data h
    simp at this

theorem string_append_ne_empty (x y : String) (h : y ≠ "") : x ++ y ≠ "" := by
  intro hx
  have hd := congrArg String.data hx
  simp only [String.data_append] at hd
  rcases List.append_eq_nil.mp hd with ⟨-, h2⟩
  exact h (by cases y; simp_all)

theorem pyFloatChars_ne_nil (m : Int) (e : Nat) : pyFloatChars m e ≠ [] := by
  unfold pyFloatChars
  dsimp only
  split_ifs <;> intro h <;> simp [List.append_eq_nil] at h

theorem pyStr_ne_empty (v : CVal) (h : v ≠ .str "") : pyStr v ≠ "" := by
  cases v with
  | nan => decide
  | int z => exact int_toString_ne_empty z
  | float m e =>
    intro hx
    exact pyFloatChars_ne_nil m e (congrArg String.data hx)
  | str s =>
    intro hx
    have hx' : s = "" := hx
    exact h (by rw [hx'])
  | date d => exact string_append_ne_empty _ " 00:00:00" (by decide)

theorem chNumParse_shape (l : List Char) (v : CVal) (h : chNumParse l = some v) :
    (∃ z, v = .int z) ∨ ∃ m e, v = .float m e := by
  unfold chNumParse at h
  dsimp only at h
  split_ifs at h with h1
  · exact Or.inl ⟨_, (Option.some.injEq _ _ ▸ h).symm⟩
  · split at h
    · split_ifs at h with h2
      · exact Or.inr ⟨_, _, (Option.some.injEq _ _ ▸ h).symm⟩
    · simp at h

theorem pyToNumericCell_str_eq (t : String) :
    pyToNumericCell (.str t) =
      (match chNumParse (chStrip t.toList) with
       | some w => w
       | none => CVal.nan) := rfl

/-- Numeric coercion output is never a string cell. -/
theorem pyToNumericCell_not_str (v : CVal) (s : String) : pyToNumericCell v ≠ .str s := by
  cases v with
  | str t =>
    rw [pyToNumericCell_str_eq]
    cases hp : chNumParse (chStrip t.toList) with
    | none => simp
    | some w =>
      rcases chNumParse_shape _ _ hp with ⟨z, hz⟩ | ⟨m, e, hme⟩
      · rw [hz]; simp
      · rw [hme]; simp
  | nan => simp [pyToNumericCell]
  | int z => simp [pyToNumericCell]
  | float m e => simp [pyToNumericCell]
  | date d => simp [pyToNumericCell]

/-- Numeric coercion is idempotent at the cell level. -/
theorem pyToNumericCell_idem (v : CVal) :
    pyToNumericCell (pyToNumericCell v) = pyToNumericCell v := by
  cases v with
  | str t =>
    rw [pyToNumericCell_str_eq]
    cases hp : chNumParse (chStrip t.toList) with
    | none => rfl
    | some w =>
      rcases chNumParse_shape _ _ hp with ⟨z, hz⟩ | ⟨m, e, hme⟩
      · rw [hz]; rfl
      · rw [hme]; rfl
  | nan => rfl
  | int z => rfl
  | float m e => rfl
  | date d => rfl

theorem toNumericCol_idem (c : Col) : toNumericCol (toNumericCol c) = toNumericCol c := by
  unfold toNumericCol
  dsimp only
  rw [List.map_map]
  have hm : List.map (pyToNumericCell ∘ pyToNumericCell) c.vals =
      List.map pyToNumericCell c.vals :=
    List.map_congr_left (fun v _ => pyToNumericCell_idem v)
  rw [hm]

theorem pyStr_of_str (s : String) : pyStr (.str s) = s := rfl

theorem astypeStrCol_idem (c : Col) : astypeStrCol (astypeStrCol c) = astypeStrCol c := by
  unfold astypeStrCol
  dsimp only
  rw [List.map_map]
  have hm : List.map ((fun v => CVal.str (pyStr v)) ∘ fun v => CVal.str (pyStr v)) c.vals =
      List.map (fun v => CVal.str (pyStr v)) c.vals :=
    List.map_congr_left (fun v _ => rfl)
  rw [hm]

theorem pyToDatetimeCell_str_eq (t : String) :
    pyToDatetimeCell (.str t) =
      (match chDateParse (chStrip t.toList) with
       | some d => CVal.date d
       | none => CVal.nan) := rfl

theorem pyToDatetimeCell_idem (v : CVal) :
    pyToDatetimeCell (pyToDatetimeCell v) = pyToDatetimeCell v := by
  cases v with
  | str t =>
    rw [pyToDatetimeCell_str_eq]
    cases hp : chDateParse (chStrip t.toList) with
    | none => rfl
    | some d => rfl
  | nan => rfl
  | int z => rfl
  | float m e => rfl
  | date d => rfl

theorem toDatetimeCol_idem (c : Col) : toDatetimeCol (toDatetimeCol c) = toDatetimeCol c := by
  unfold toDatetimeCol
  dsimp only
  rw [List.map_map]
  have hm : List.map (pyToDatetimeCell ∘ pyToDatetimeCell) c.vals =
      List.map pyToDatetimeCell c.vals :=
    List.map_congr_left (fun v _ => pyToDatetimeCell_idem v)
  rw [hm]

theorem toNumericCol_dtype_not_obj (c : Col) :
    (toNumericCol c).dtype ≠ .obj ∧ (toNumericCol c).dtype ≠ .dt := by
  unfold toNumericCol
  dsimp only
  split_ifs <;> exact ⟨by simp, by simp⟩

/-- `fillna('Unknown')` is idempotent at the column level. -/
theorem fillUnknownCol_idem (c : Col) :
    fillUnknownCol (fillUnknownCol c) = fillUnknownCol c := by
  unfold fillUnknownCol
  dsimp only
  have hcell : ∀ v : CVal, (if v = .nan then CVal.str "Unknown" else v) ≠ .nan := by
    intro v
    split_ifs with hv
    · simp
    · exact hv
  have hany : (c.vals.map (fun v => if v = .nan then CVal.str "Unknown" else v)).any
      (fun v => v = .nan) = false := by
    rw [List.any_eq_false]
    intro v hv
    rw [List.mem_map] at hv
    obtain ⟨w, _, hw⟩ := hv
    simpa [← hw] using hcell w
  rw [hany]
  simp only [Bool.false_eq_true, if_false]
  rw [List.map_map]
  congr 1
  apply List.map_congr_left
  intro v _
  show (if (if v = .nan then CVal.str "Unknown" else v) = .nan then CVal.str "Unknown" else _) = _
  rw [if_neg (hcell v)]

theorem pyToDatetimeCell_not_str (v : CVal) (s : String) : pyToDatetimeCell v ≠ .str s := by
  cases v with
  | str t =>
    rw [pyToDatetimeCell_str_eq]
    cases hp : chDateParse (chStrip t.toList) with
    | none => simp
    | some d => simp
  | nan => simp [pyToDatetimeCell]
  | int z => simp [pyToDatetimeCell]
  | float m e => simp [pyToDatetimeCell]
  | date d => simp [pyToDatetimeCell]

/-- No cell of the column is the empty string. -/
def NoEmptyCol (c : Col) : Prop := ∀ v ∈ c.vals, v ≠ .str ""

theorem noEmpty_replaceEmpty (c : Col) :
    NoEmptyCol ⟨c.dtype, c.vals.map replaceEmptyCell⟩ := by
  intro v hv
  simp only [List.mem_map] at hv
  obtain ⟨w, _, hw⟩ := hv
  rw [← hw]
  unfold replaceEmptyCell
  split_ifs with h
  · simp
  · exact h

theorem noEmpty_astypeStr (c : Col) (h : NoEmptyCol c) : NoEmptyCol (astypeStrCol c) := by
  intro v hv
  simp only [astypeStrCol, List.mem_map] at hv
  obtain ⟨w, hw, he⟩ := hv
  rw [← he]
  intro hx
  exact pyStr_ne_empty w (h w hw) (by injection hx)

theorem noEmpty_toNumeric (c : Col) : NoEmptyCol (toNumericCol c) := by
  intro v hv
  simp only [toNumericCol, List.mem_map] at hv
  obtain ⟨w, _, he⟩ := hv
  rw [← he]
  exact pyToNumericCell_not_str w ""

theorem noEmpty_toDatetime (c : Col) : NoEmptyCol (toDatetimeCol c) := by
  intro v hv
  simp only [toDatetimeCol, List.mem_map] at hv
  obtain ⟨w, _, he⟩ := hv
  rw [← he]
  exact pyToDatetimeCell_not_str w ""

theorem noEmpty_amountCol (c : Col) : NoEmptyCol (amountCol c) := by
  unfold amountCol
  exact noEmpty_toNumeric _

theorem noEmpty_fillUnknown (c : Col) (h : NoEmptyCol c) : NoEmptyCol (fillUnknownCol c) := by
  intro v hv
  simp only [fillUnknownCol, List.mem_map] at hv
  obtain ⟨w, hw, he⟩ := hv
  rw [← he]
  split_ifs with hn
  · simp
  · exact h w hw

theorem noEmpty_decadeCol (c : Col) :
    NoEmptyCol ⟨.obj, c.vals.map decadeCellClean⟩ := by
  intro v hv
  simp only [List.mem_map] at hv
  obtain ⟨w, _, he⟩ := hv
  rw [← he]
  unfold decadeCellClean decadeFmtCell
  cases floorDecadeCell w with
  | nan => simp
  | int z =>
    intro hx
    exact string_append_ne_empty (toString z) "s" (by decide) (by injection hx)
  | float m e =>
    intro hx
    exact string_append_ne_empty (toString (pyTruncFloat m e)) "s" (by decide) (by injection hx)
  | str s => simp
  | date d => simp

theorem noEmpty_totalCol (n : Nat) (g : List (String × Col)) :
    NoEmptyCol (totalCol n g) := by
  intro v hv
  unfold totalCol at hv
  split_ifs at hv <;> simp only [List.mem_map] at hv <;>
    obtain ⟨i, _, he⟩ := hv <;> rw [← he] <;> simp

/-- The stability invariant: a column of the normalized output is a fixed
point of every per-column rule that applies to its name. -/
def ColStable (n : String) (c : Col) : Prop :=
  NoEmptyCol c ∧
  (n = "ID" → astypeStrCol c = c) ∧
  ((n = "CL YR" ∨ n = "SP CL YR") → toNumericCol c = c) ∧
  (isDateName n = true → toDatetimeCol c = c) ∧
  (isAmountName n = true → n ≠ "WE Range" → n ≠ "LT Giving" → c.dtype ≠ .obj) ∧
  (n = "State" → fillUnknownCol c = c)

theorem colStable_decadeCol (c : Col) :
    ColStable "Decade" ⟨.obj, c.vals.map decadeCellClean⟩ := by
  refine ⟨noEmpty_decadeCol c, ?_, ?_, ?_, ?_, ?_⟩
  · intro h; exact absurd h (by decide)
  · intro h; rcases h with h | h <;> exact absurd h (by decide)
  · intro h; exact absurd h (by decide)
  · intro h; exact absurd h (by decide)
  · intro h; exact absurd h (by decide)

theorem colStable_totalCol (n : Nat) (g : List (String × Col)) :
    ColStable "Total_All_Giving" (totalCol n g) := by
  refine ⟨noEmpty_totalCol n g, ?_, ?_, ?_, ?_, ?_⟩
  · intro h; exact absurd h (by decide)
  · intro h; rcases h with h | h <;> exact absurd h (by decide)
  · intro h; exact absurd h (by decide)
  · intro h; exact absurd h (by decide)
  · intro h; exact absurd h (by decide)

theorem allStable_stage1 (df : DataFrame) :
    ∀ p ∈ (stepEmpty df).cols, NoEmptyCol p.2 := by
  intro p hp
  obtain ⟨q, _, he⟩ := mem_mapCols hp
  rw [he]
  exact noEmpty_replaceEmpty q.2

theorem allStable_stage2 (df : DataFrame) :
    ∀ p ∈ (stepID (stepEmpty df)).cols,
      NoEmptyCol p.2 ∧ (p.1 = "ID" → astypeStrCol p.2 = p.2) := by
  intro p hp
  obtain ⟨q, hq, he⟩ := mem_mapCols hp
  have ih := allStable_stage1 df q hq
  subst he
  dsimp only
  by_cases hn : q.1 = "ID"
  · rw [if_pos hn]
    exact ⟨noEmpty_astypeStr q.2 ih, fun _ => astypeStrCol_idem q.2⟩
  · rw [if_neg hn]
    exact ⟨ih, fun hx => absurd hx hn⟩

theorem allStable_stage3 (df : DataFrame) :
    ∀ p ∈ (stepYears (stepID (stepEmpty df))).cols,
      NoEmptyCol p.2 ∧ (p.1 = "ID" → astypeStrCol p.2 = p.2) ∧
      ((p.1 = "CL YR" ∨ p.1 = "SP CL YR") → toNumericCol p.2 = p.2) := by
  intro p hp
  obtain ⟨q, hq, he⟩ := mem_mapCols hp
  have ih := allStable_stage2 df q hq
  subst he
  dsimp only
  by_cases hn : q.1 = "CL YR" ∨ q.1 = "SP CL YR"
  · rw [if_pos hn]
    refine ⟨noEmpty_toNumeric q.2, ?_, fun _ => toNumericCol_idem q.2⟩
    intro hx
    rcases hn with hn | hn <;> rw [hx] at hn <;> exact absurd hn (by decide)
  · rw [if_neg hn]
    exact ⟨ih.1, ih.2, fun hx => absurd hx hn⟩

theorem allStable_stage4 (df : DataFrame) :
    ∀ p ∈ (stepDates (stepYears (stepID (stepEmpty df)))).cols,
      NoEmptyCol p.2 ∧ (p.1 = "ID" → astypeStrCol p.2 = p.2) ∧
      ((p.1 = "CL YR" ∨ p.1 = "SP CL YR") → toNumericCol p.2 = p.2) ∧
      (isDateName p.1 = true → toDatetimeCol p.2 = p.2) := by
  intro p hp
  obtain ⟨q, hq, he⟩ := mem_mapCols hp
  have ih := allStable_stage3 df q hq
  subst he
  dsimp only
  by_cases hn : isDateName q.1 = true
  · rw [if_pos hn]
    refine ⟨noEmpty_toDatetime q.2, ?_, ?_, fun _ => toDatetimeCol_idem q.2⟩
    · intro hx
      rw [hx] at hn
      exact absurd hn (by decide)
    · intro hx
      rcases hx with hx | hx <;> rw [hx] at hn <;> exact absurd hn (by decide)
  · rw [if_neg hn]
    exact ⟨ih.1, ih.2.1, ih.2.2, fun hx => absurd hx hn⟩

theorem allStable_stage5 (df : DataFrame) :
    ∀ p ∈ (stepAmounts (stepDates (stepYears (stepID (stepEmpty df))))).cols,
      NoEmptyCol p.2 ∧ (p.1 = "ID" → astypeStrCol p.2 = p.2) ∧
      ((p.1 = "CL YR" ∨ p.1 = "SP CL YR") → toNumericCol p.2 = p.2) ∧
      (isDateName p.1 = true → toDatetimeCol p.2 = p.2) ∧
      (isAmountName p.1 = true → p.1 ≠ "WE Range" → p.1 ≠ "LT Giving" →
        p.2.dtype ≠ .obj) := by
  intro p hp
  obtain ⟨q, hq, he⟩ := mem_mapCols hp
  have ih := allStable_stage4 df q hq
  subst he
  dsimp only
  by_cases hg : (isAmountName q.1 && q.2.dtype = .obj) = true
  · rw [if_pos hg]
    have ham : isAmountName q.1 = true := (Bool.and_eq_true _ _ ▸ hg).1
    by_cases hx : q.1 = "WE Range" ∨ q.1 = "LT Giving"
    · rw [if_pos hx]
      refine ⟨ih.1, ih.2.1, ih.2.2.1, ih.2.2.2, ?_⟩
      intro _ hw hl
      rcases hx with hx | hx
      · exact absurd hx hw
      · exact absurd hx hl
    · rw [if_neg hx]
      refine ⟨noEmpty_amountCol q.2, ?_, ?_, ?_, ?_⟩
      · intro hq1
        rw [hq1] at ham
        exact absurd ham (by decide)
      · intro hq1
        rcases hq1 with hq1 | hq1 <;> rw [hq1] at ham <;> exact absurd ham (by decide)
      · intro hq1
        unfold isAmountName at ham
        rw [hq1] at ham
        simp at ham
      · intro _ _ _
        exact ((toNumericCol_dtype_not_obj _).1 : (amountCol q.2).dtype ≠ .obj)
  · rw [if_neg hg]
    refine ⟨ih.1, ih.2.1, ih.2.2.1, ih.2.2.2, ?_⟩
    intro ham _ _
    intro hobj
    exact hg (by rw [ham, hobj]; decide)

theorem allStable_stage6 (df : DataFrame) :
    ∀ p ∈ (stepDecade (stepAmounts (stepDates (stepYears (stepID (stepEmpty df)))))).cols,
      NoEmptyCol p.2 ∧ (p.1 = "ID" → astypeStrCol p.2 = p.2) ∧
      ((p.1 = "CL YR" ∨ p.1 = "SP CL YR") → toNumericCol p.2 = p.2) ∧
      (isDateName p.1 = true → toDatetimeCol p.2 = p.2) ∧
      (isAmountName p.1 = true → p.1 ≠ "WE Range" → p.1 ≠ "LT Giving" →
        p.2.dtype ≠ .obj) := by
  intro p hp
  unfold stepDecade at hp
  cases hcl : lookupCol (stepAmounts (stepDates (stepYears (stepID (stepEmpty df))))) "CL YR" with
  | none =>
    rw [hcl] at hp
    exact allStable_stage5 df p hp
  | some c =>
    rw [hcl] at hp
    rcases mem_setCol hp with ⟨hin, _⟩ | hpe
    · exact allStable_stage5 df p hin
    · subst hpe
      have K := colStable_decadeCol c
      exact ⟨K.1, K.2.1, K.2.2.1, K.2.2.2.1, K.2.2.2.2.1⟩

theorem allStable_stage7 (df : DataFrame) :
    ∀ p ∈ (cleanPre df).cols, ColStable p.1 p.2 := by
  intro p hp
  obtain ⟨q, hq, he⟩ := mem_mapCols hp
  have ih := allStable_stage6 df q hq
  subst he
  dsimp only
  by_cases hn : q.1 = "State"
  · rw [if_pos hn]
    refine ⟨noEmpty_fillUnknown q.2 ih.1, ?_, ?_, ?_, ?_, fun _ => fillUnknownCol_idem q.2⟩
    · intro hx
      have : ("State" : String) = "ID" := by rw [← hn]; exact hx
      exact absurd this (by decide)
    · intro hx
      rcases hx with hx | hx
      · have hcl : ("State" : String) = "CL YR" := by rw [← hn]; exact hx
        exact absurd hcl (by decide)
      · have hcl : ("State" : String) = "SP CL YR" := by rw [← hn]; exact hx
        exact absurd hcl (by decide)
    · intro hx
      rw [hn] at hx
      exact absurd hx (by decide)
    · intro hx
      rw [hn] at hx
      exact absurd hx (by decide)
  · rw [if_neg hn]
    exact ⟨ih.1, ih.2.1, ih.2.2.1, ih.2.2.2.1, ih.2.2.2.2, fun hx => absurd hx hn⟩

theorem allStable_out (df : DataFrame) :
    ∀ p ∈ (clean_data df).cols, ColStable p.1 p.2 := by
  intro p hp
  rw [clean_data_eq_stepTotal] at hp
  unfold stepTotal at hp
  dsimp only at hp
  split_ifs at hp with hg
  · exact allStable_stage7 df p hp
  · rcases mem_setCol hp with ⟨hin, _⟩ | hpe
    · exact allStable_stage7 df p hin
    · subst hpe
      exact colStable_totalCol _ _

theorem setCol_entry_val {x : DataFrame} {k : String} {c : Col} :
    ∀ p ∈ (setCol x k c).cols, p.1 = k → p.2 = c := by
  intro p hp hk
  rcases mem_setCol hp with ⟨_, hne⟩ | he
  · exact absurd hk hne
  · rw [he]

/-! ### Each step fixes the normalized output -/

theorem stepEmpty_fix (x : DataFrame) (h : ∀ p ∈ x.cols, NoEmptyCol p.2) :
    stepEmpty x = x := by
  unfold stepEmpty
  apply mapCols_eq_self
  intro p hp
  have : p.2.vals.map replaceEmptyCell = p.2.vals := by
    calc p.2.vals.map replaceEmptyCell = p.2.vals.map id := by
          apply List.map_congr_left
          intro v hv
          unfold replaceEmptyCell
          rw [if_neg (h p hp v hv)]
          rfl
      _ = p.2.vals := List.map_id _
  rw [this]

theorem stepID_fix (x : DataFrame) (h : ∀ p ∈ x.cols, p.1 = "ID" → astypeStrCol p.2 = p.2) :
    stepID x = x := by
  unfold stepID
  apply mapCols_eq_self
  intro p hp
  by_cases hn : p.1 = "ID"
  · rw [if_pos hn]
    exact h p hp hn
  · rw [if_neg hn]

theorem stepYears_fix (x : DataFrame)
    (h : ∀ p ∈ x.cols, (p.1 = "CL YR" ∨ p.1 = "SP CL YR") → toNumericCol p.2 = p.2) :
    stepYears x = x := by
  unfold stepYears
  apply mapCols_eq_self
  intro p hp
  by_cases hn : p.1 = "CL YR" ∨ p.1 = "SP CL YR"
  · rw [if_pos hn]
    exact h p hp hn
  · rw [if_neg hn]

theorem stepDates_fix (x : DataFrame)
    (h : ∀ p ∈ x.cols, isDateName p.1 = true → toDatetimeCol p.2 = p.2) :
    stepDates x = x := by
  unfold stepDates
  apply mapCols_eq_self
  intro p hp
  by_cases hn : isDateName p.1 = true
  · rw [if_pos hn]
    exact h p hp hn
  · rw [if_neg hn]

theorem stepAmounts_fix (x : DataFrame)
    (h : ∀ p ∈ x.cols, isAmountName p.1 = true → p.1 ≠ "WE Range" → p.1 ≠ "LT Giving" →
      p.2.dtype ≠ .obj) :
    stepAmounts x = x := by
  unfold stepAmounts
  apply mapCols_eq_self
  intro p hp
  by_cases hg : (isAmountName p.1 && p.2.dtype = .obj) = true
  · rw [if_pos hg]
    have ham : isAmountName p.1 = true := (Bool.and_eq_true _ _ ▸ hg).1
    have hobj : p.2.dtype = .obj := of_decide_eq_true (Bool.and_eq_true _ _ ▸ hg).2
    by_cases hx : p.1 = "WE Range" ∨ p.1 = "LT Giving"
    · rw [if_pos hx]
    · rw [if_neg hx]
      push_neg at hx
      exact absurd hobj (h p hp ham hx.1 hx.2)
  · rw [if_neg hg]

theorem stepState_fix (x : DataFrame)
    (h : ∀ p ∈ x.cols, p.1 = "State" → fillUnknownCol p.2 = p.2) :
    stepState x = x := by
  unfold stepState
  apply mapCols_eq_self
  intro p hp
  by_cases hn : p.1 = "State"
  · rw [if_pos hn]
    exact h p hp hn
  · rw [if_neg hn]

theorem stepDecade_mid_none (df : DataFrame)
    (hcl : lookupCol (stepAmounts (stepDates (stepYears (stepID (stepEmpty df))))) "CL YR" = none) :
    cleanPre df = stepState (stepAmounts (stepDates (stepYears (stepID (stepEmpty df))))) := by
  unfold cleanPre stepDecade
  rw [hcl]

theorem stepDecade_mid_some (df : DataFrame) (c : Col)
    (hcl : lookupCol (stepAmounts (stepDates (stepYears (stepID (stepEmpty df))))) "CL YR" = some c) :
    cleanPre df = stepState (setCol (stepAmounts (stepDates (stepYears (stepID (stepEmpty df)))))
      "Decade" ⟨.obj, c.vals.map decadeCellClean⟩) := by
  unfold cleanPre stepDecade
  rw [hcl]

theorem lookupCol_stepTotal_ne (df : DataFrame) {n : String}
    (h : n ≠ "Total_All_Giving") : lookupCol (stepTotal df) n = lookupCol df n := by
  unfold stepTotal
  dsimp only
  split_ifs
  · rfl
  · exact lookupCol_setCol_ne _ _ _ h

theorem stepDecade_fix_out (df : DataFrame) :
    stepDecade (clean_data df) = clean_data df := by
  cases hcl : lookupCol (stepAmounts (stepDates (stepYears (stepID (stepEmpty df))))) "CL YR" with
  | none =>
    have hpre := stepDecade_mid_none df hcl
    have h1 : lookupCol (cleanPre df) "CL YR" = none := by
      rw [hpre]
      unfold stepState
      rw [lookupCol_mapCols, hcl]
      rfl
    have h2 : lookupCol (clean_data df) "CL YR" = none := by
      rw [clean_data_eq_stepTotal,
        lookupCol_stepTotal_ne _ (by decide : ("CL YR" : String) ≠ "Total_All_Giving")]
      exact h1
    unfold stepDecade
    rw [h2]
  | some c =>
    have hpre := stepDecade_mid_some df c hcl
    have hCL1 : lookupCol (cleanPre df) "CL YR" = some c := by
      rw [hpre]
      unfold stepState
      rw [lookupCol_mapCols,
        lookupCol_setCol_ne _ _ _ (by decide : ("CL YR" : String) ≠ "Decade"), hcl]
      rw [Option.map_some']
      rw [if_neg (by decide : ¬(("CL YR" : String) = "State"))]
    have hCLout : lookupCol (clean_data df) "CL YR" = some c := by
      rw [clean_data_eq_stepTotal,
        lookupCol_stepTotal_ne _ (by decide : ("CL YR" : String) ≠ "Total_All_Giving")]
      exact hCL1
    have hpreEntry : ∀ p ∈ (cleanPre df).cols, p.1 = "Decade" →
        p.2 = ⟨.obj, c.vals.map decadeCellClean⟩ := by
      intro p hp hpd
      rw [hpre] at hp
      obtain ⟨q, hq, he⟩ := mem_mapCols hp
      subst he
      dsimp only at hpd ⊢
      have hq2 := setCol_entry_val q hq hpd
      rw [if_neg (by rw [hpd]; decide : ¬(q.1 = "State"))]
      exact hq2
    have hDecEntry : ∀ p ∈ (clean_data df).cols, p.1 = "Decade" →
        p.2 = ⟨.obj, c.vals.map decadeCellClean⟩ := by
      intro p hp hpd
      rw [clean_data_eq_stepTotal] at hp
      unfold stepTotal at hp
      dsimp only at hp
      split_ifs at hp with hg
      · exact hpreEntry p hp hpd
      · rcases mem_setCol hp with ⟨hin, _⟩ | hpe
        · exact hpreEntry p hin hpd
        · rw [hpe] at hpd
          have hx : ("Total_All_Giving" : String) = "Decade" := hpd
          exact absurd hx (by decide)
    have hHas : hasCol (clean_data df) "Decade" = true := by
      have hpreD : lookupCol (cleanPre df) "Decade" =
          some ⟨.obj, c.vals.map decadeCellClean⟩ := by
        rw [hpre]
        unfold stepState
        rw [lookupCol_mapCols, lookupCol_setCol_self, Option.map_some']
        rw [if_neg (by decide : ¬(("Decade" : String) = "State"))]
      unfold hasCol
      rw [clean_data_eq_stepTotal,
        lookupCol_stepTotal_ne _ (by decide : ("Decade" : String) ≠ "Total_All_Giving"), hpreD]
      rfl
    unfold stepDecade
    rw [hCLout]
    exact setCol_eq_self hHas hDecEntry

theorem stepTotal_fix_out (df : DataFrame) :
    stepTotal (clean_data df) = clean_data df := by
  have hg : givingColsOf (clean_data df) = givingColsOf (cleanPre df) := by
    rw [clean_data_eq_stepTotal]
    exact givingColsOf_stepTotal _
  have hnr : (clean_data df).nrows = (cleanPre df).nrows := by
    rw [clean_data_eq_stepTotal, stepTotal_nrows]
  by_cases hempty : (givingColsOf (cleanPre df)).isEmpty = true
  · have hcd : clean_data df = cleanPre df := by
      rw [clean_data_eq_stepTotal]
      unfold stepTotal
      dsimp only
      rw [if_pos hempty]
    rw [hcd]
    unfold stepTotal
    dsimp only
    rw [if_pos hempty]
  · have hT : clean_data df = setCol (cleanPre df) "Total_All_Giving"
        (totalCol (cleanPre df).nrows (givingColsOf (cleanPre df))) := by
      rw [clean_data_eq_stepTotal]
      unfold stepTotal
      dsimp only
      rw [if_neg hempty]
    show stepTotal (clean_data df) = clean_data df
    unfold stepTotal
    dsimp only
    rw [hg, hnr, if_neg hempty]
    apply setCol_eq_self
    · rw [hT]
      exact hasCol_setCol_self _ _ _
    · intro p hp hpt
      rw [hT] at hp
      exact setCol_entry_val p hp hpt

/-- C7: `clean_data` is idempotent — normalizing an already-normalized
table changes nothing: every per-column rule (identifier, year, date,
currency, state) is a fixed point on the output, and the derived `Decade`
and `Total_All_Giving` columns are recomputed to the same values. -/
theorem c7_clean_data_idempotent (df : DataFrame) :
    clean_data (clean_data df) = clean_data df := by
  have hS := allStable_out df
  have h1 : stepEmpty (clean_data df) = clean_data df :=
    stepEmpty_fix _ (fun p hp => (hS p hp).1)
  have h2 : stepID (clean_data df) = clean_data df :=
    stepID_fix _ (fun p hp => (hS p hp).2.1)
  have h3 : stepYears (clean_data df) = clean_data df :=
    stepYears_fix _ (fun p hp => (hS p hp).2.2.1)
  have h4 : stepDates (clean_data df) = clean_data df :=
    stepDates_fix _ (fun p hp => (hS p hp).2.2.2.1)
  have h5 : stepAmounts (clean_data df) = clean_data df :=
    stepAmounts_fix _ (fun p hp => (hS p hp).2.2.2.2.1)
  have h6 := stepDecade_fix_out df
  have h7 : stepState (clean_data df) = clean_data df :=
    stepState_fix _ (fun p hp => (hS p hp).2.2.2.2.2)
  have h8 := stepTotal_fix_out df
  show stepTotal (stepState (stepDecade (stepAmounts (stepDates (stepYears
    (stepID (stepEmpty (clean_data df)))))))) = clean_data df
  rw [h1, h2, h3, h4, h5, h6, h7, h8]
